import Mathlib

/-!
Verification of the subtitle styling and layout engine of the
no-code-architects toolkit (file src/services/ass_toolkit.py), via a shallow
embedding into Lean.  Python floats are modelled as exact rationals, Python
ints as integers, strings as Lean strings over explicit character lists.
External collaborators (font catalog, downloads, the third-party srt library,
the filesystem) are modelled as an explicit environment value.
-/

set_option maxRecDepth 8000

namespace AssToolkit

/-! ## Python numeric primitives -/

/-- Kernel-computable floor of a rational (the denominator is positive, so
euclidean division of num by den is the floor). -/
def ratFloor (q : ℚ) : ℤ := q.num / (q.den : ℤ)

/-- Python int() applied to a float: truncation toward zero. -/
def pyInt (q : ℚ) : ℤ := if 0 ≤ q then ratFloor q else -(ratFloor (-q))

/-- Python `%` on floats with the sign convention of the divisor. -/
def pyMod (a b : ℚ) : ℚ := a - b * (ratFloor (a / b) : ℚ)

/-- Python round() on a float: round half to even, returning an int. -/
def pyRound (q : ℚ) : ℤ :=
  let f : ℤ := ratFloor q
  let r : ℚ := q - (f : ℚ)
  if r < 1/2 then f
  else if (1 : ℚ)/2 < r then f + 1
  else if f % 2 = 0 then f else f + 1

/-! ## Characters and digit strings (ASCII model) -/

def isPyWsChar (c : Char) : Bool :=
  c.toNat = 32 || c.toNat = 9 || c.toNat = 10 || c.toNat = 13 ||
  c.toNat = 11 || c.toNat = 12

def isDigitChar (c : Char) : Bool := 48 ≤ c.toNat && c.toNat ≤ 57

def isHexDigitChar (c : Char) : Bool :=
  (48 ≤ c.toNat && c.toNat ≤ 57) || (97 ≤ c.toNat && c.toNat ≤ 102) ||
  (65 ≤ c.toNat && c.toNat ≤ 70)

def isAlphaChar (c : Char) : Bool :=
  (65 ≤ c.toNat && c.toNat ≤ 90) || (97 ≤ c.toNat && c.toNat ≤ 122)

def decDigitVal (c : Char) : ℕ := c.toNat - 48

def hexDigitVal (c : Char) : ℕ :=
  if c.toNat ≤ 57 then c.toNat - 48
  else if 97 ≤ c.toNat then c.toNat - 87
  else c.toNat - 55

/-- Decimal rendering of a natural number, most significant digit first. -/
def natDecAux : ℕ → ℕ → List Char
  | 0, _ => []
  | fuel+1, n => if n = 0 then [] else natDecAux fuel (n / 10) ++ [Char.ofNat (48 + n % 10)]

def natDecChars (n : ℕ) : List Char := if n = 0 then ['0'] else natDecAux (n+1) n

/-- Python str() of an int. -/
def intDecChars (n : ℤ) : List Char :=
  if n < 0 then '-' :: natDecChars n.natAbs else natDecChars n.toNat

/-- Uppercase hexadecimal rendering of a natural number. -/
def natHexAux : ℕ → ℕ → List Char
  | 0, _ => []
  | fuel+1, n =>
    if n = 0 then []
    else natHexAux fuel (n / 16) ++
      [if n % 16 < 10 then Char.ofNat (48 + n % 16) else Char.ofNat (55 + n % 16)]

def natHexChars (n : ℕ) : List Char := if n = 0 then ['0'] else natHexAux (n+1) n

def padLeftZero (w : ℕ) (l : List Char) : List Char := List.replicate (w - l.length) '0' ++ l

/-- Python format spec `{n:02}` on an int. -/
def pad2Chars (n : ℤ) : List Char :=
  if n < 0 then '-' :: padLeftZero 1 (natDecChars n.natAbs)
  else padLeftZero 2 (natDecChars n.toNat)

/-- Python format spec `{n:02X}` on an int. -/
def pyFormat02X (n : ℤ) : String :=
  if n < 0 then String.mk ('-' :: padLeftZero 1 (natHexChars n.natAbs))
  else String.mk (padLeftZero 2 (natHexChars n.toNat))

/-! ## format_ass_time (ass_toolkit.py lines 183-189) -/

/-- `format_ass_time(seconds)`: convert float seconds to `H:MM:SS.cc`.
Mirrors the Python source line by line; note that the centisecond field is
emitted with `{:02}` padding and no carry is performed when it reaches 100. -/
def format_ass_time (seconds : ℚ) : String :=
  let hours : ℤ := ratFloor (seconds / 3600)
  let minutes : ℤ := ratFloor (pyMod seconds 3600 / 60)
  let secs : ℤ := pyInt (pyMod seconds 60)
  let centiseconds : ℤ := pyRound ((seconds - (pyInt seconds : ℚ)) * 100)
  String.mk (intDecChars hours ++ ':' :: pad2Chars minutes ++ ':' :: pad2Chars secs
    ++ '.' :: pad2Chars centiseconds)

/-! ## Python string primitives -/

def pyStripList (l : List Char) : List Char :=
  ((l.dropWhile isPyWsChar).reverse.dropWhile isPyWsChar).reverse

/-- Python str.strip() with no arguments (ASCII whitespace model). -/
def pyStrip (s : String) : String := String.mk (pyStripList s.toList)

/-- Python str.lstrip with a single strip character. -/
def pyLstripChar (c : Char) (s : String) : String :=
  String.mk (s.toList.dropWhile (· = c))

def toLowerStr (s : String) : String := String.mk (s.toList.map Char.toLower)

def toUpperStr (s : String) : String := String.mk (s.toList.map Char.toUpper)

/-- Python s[a:b] slicing (for 0 ≤ a ≤ b). -/
def pySlice (s : String) (a b : ℕ) : String := String.mk ((s.toList.drop a).take (b - a))

def pyReplaceChar (old new : Char) (s : String) : String :=
  String.mk (s.toList.map (fun c => if c = old then new else c))

def startsWithList : List Char → List Char → Bool
  | [], _ => true
  | _ :: _, [] => false
  | p :: ps, c :: cs => p = c && startsWithList ps cs

def infixAt (pat : List Char) : List Char → Bool
  | [] => startsWithList pat []
  | c :: cs => startsWithList pat (c :: cs) || infixAt pat cs

/-- Substring containment: Python `pat in s`. -/
def containsSubstr (s pat : String) : Bool := infixAt pat.toList s.toList

/-- Python s.startswith(pat). -/
def pyStartsWith (s pat : String) : Bool := startsWithList pat.toList s.toList

/-- Full split on a single separator character: Python s.split(sep). -/
def splitCharAux (sep : Char) (acc : List Char) : List Char → List (List Char)
  | [] => [acc.reverse]
  | c :: t => if c = sep then acc.reverse :: splitCharAux sep [] t
              else splitCharAux sep (c :: acc) t

def pySplitChar (sep : Char) (s : String) : List String :=
  (splitCharAux sep [] s.toList).map String.mk

/-- Split with a maxsplit bound: Python s.split(sep, maxsplit). -/
def splitCharMaxAux (sep : Char) : ℕ → List Char → List Char → List (List Char)
  | _, acc, [] => [acc.reverse]
  | remaining, acc, c :: t =>
    if c = sep then
      match remaining with
      | 0 => splitCharMaxAux sep 0 (c :: acc) t
      | r+1 => acc.reverse :: splitCharMaxAux sep r [] t
    else splitCharMaxAux sep remaining (c :: acc) t

def pySplitMax (sep : Char) (maxsplit : ℕ) (s : String) : List String :=
  (splitCharMaxAux sep maxsplit [] s.toList).map String.mk

/-- Whitespace split discarding empties: Python s.split() with no arguments. -/
def pySplitWsAux (acc : List Char) : List Char → List (List Char)
  | [] => if acc = [] then [] else [acc.reverse]
  | c :: t => if isPyWsChar c then
      (if acc = [] then pySplitWsAux [] t else acc.reverse :: pySplitWsAux [] t)
    else pySplitWsAux (c :: acc) t

def pySplitWs (s : String) : List String := (pySplitWsAux [] s.toList).map String.mk

/-- Python str.splitlines() over the usual terminators \n, \r, \r\n. -/
def pySplitlinesAux (acc : List Char) : List Char → List (List Char)
  | [] => if acc = [] then [] else [acc.reverse]
  | '\r' :: '\n' :: t => acc.reverse :: pySplitlinesAux [] t
  | '\r' :: t => acc.reverse :: pySplitlinesAux [] t
  | '\n' :: t => acc.reverse :: pySplitlinesAux [] t
  | c :: t => pySplitlinesAux (c :: acc) t

def pySplitlines (s : String) : List String := (pySplitlinesAux [] s.toList).map String.mk

/-! ## Python int()/float() parsing -/

/-- Digit run with single underscores allowed between digits, as accepted by
Python int literals; returns the accumulated value. -/
def digitsValueAux (base : ℤ) (dig : Char → Bool) (dv : Char → ℕ) :
    ℤ → List Char → Option ℤ
  | acc, [] => some acc
  | acc, c :: t =>
    if dig c then digitsValueAux base dig dv (base * acc + dv c) t
    else if c = '_' then
      match t with
      | [] => none
      | c2 :: t2 => if dig c2 then digitsValueAux base dig dv (base * acc + dv c2) t2 else none
    else none

def digitsValue (base : ℤ) (dig : Char → Bool) (dv : Char → ℕ) : List Char → Option ℤ
  | [] => none
  | c :: t => if dig c then digitsValueAux base dig dv (dv c : ℤ) t else none

def splitSign (l : List Char) : ℤ × List Char :=
  match l with
  | [] => (1, [])
  | c :: t => if c = '+' then (1, t) else if c = '-' then (-1, t) else (1, c :: t)

/-- Python int(s) in base 10 (ASCII digits). -/
def pyIntDec (s : String) : Except String ℤ :=
  let l := pyStripList s.toList
  let p := splitSign l
  match digitsValue 10 isDigitChar decDigitVal p.2 with
  | some v => .ok (p.1 * v)
  | none => .error ("invalid literal for int() with base 10: " ++ s)

/-- Python int(s, 16) (ASCII hex digits; the 0x-prefixed form, which no
two-character slice of the color code can use, is not modelled). -/
def pyIntHexStr (s : String) : Except String ℤ :=
  let l := pyStripList s.toList
  let p := splitSign l
  match digitsValue 16 isHexDigitChar hexDigitVal p.2 with
  | some v => .ok (p.1 * v)
  | none => .error ("invalid literal for int() with base 16: " ++ s)

def powTen : ℕ → ℤ
  | 0 => 1
  | n+1 => 10 * powTen n

/-- Fraction digits after a decimal point as an exact rational. -/
def fracDigitsVal (l : List Char) : ℚ :=
  match digitsValue 10 isDigitChar decDigitVal l with
  | some v => (v : ℚ) / (powTen l.length : ℚ)
  | none => 0

/-- Python float(s) restricted to finite decimal literals with an optional
exponent (exact-rational model of the parsed value; inf/nan and underscore
grouping in exponents are not modelled). -/
def pyFloat (s : String) : Except String ℚ :=
  let l := pyStripList s.toList
  let p := splitSign l
  let body := p.2
  let mantExp := splitCharAux 'e' [] (body.map Char.toLower)
  let parseMant : List Char → Option ℚ := fun m =>
    match splitCharAux '.' [] m with
    | [ip] =>
      (match digitsValue 10 isDigitChar decDigitVal ip with
       | some v => some (v : ℚ)
       | none => none)
    | [ip, fp] =>
      if ip = [] ∧ fp = [] then none
      else if ip = [] then
        (match digitsValue 10 isDigitChar decDigitVal fp with
         | some _ => some (fracDigitsVal fp)
         | none => none)
      else if fp = [] then
        (match digitsValue 10 isDigitChar decDigitVal ip with
         | some v => some (v : ℚ)
         | none => none)
      else
        (match digitsValue 10 isDigitChar decDigitVal ip,
               digitsValue 10 isDigitChar decDigitVal fp with
         | some v, some _ => some ((v : ℚ) + fracDigitsVal fp)
         | _, _ => none)
    | _ => none
  let res : Option ℚ :=
    match mantExp with
    | [m] => parseMant m
    | [m, e] =>
      (match parseMant m with
       | none => none
       | some mv =>
         let pe := splitSign e
         match digitsValue 10 isDigitChar decDigitVal pe.2 with
         | some ev =>
           some (if pe.1 = 1 then mv * (powTen ev.toNat : ℚ)
                 else mv / (powTen ev.toNat : ℚ))
         | none => none)
    | _ => none
  match res with
  | some v => .ok (p.1 * v)
  | none => .error ("could not convert string to float: " ++ s)

/-! ## rgb_to_ass_color (ass_toolkit.py lines 54-63) -/

/-- A Python value passed where a string is expected: either a str or some
other object. -/
inductive PyValue where
  | pyStr (s : String)
  | pyOther
deriving DecidableEq

/-- `rgb_to_ass_color(rgb_color)`: convert RGB hex to ASS &HAABBGGRR.  The
result is Except because int(x, 16) raises ValueError on unparseable slices. -/
def rgb_to_ass_color (v : PyValue) : Except String String :=
  match v with
  | .pyOther => .ok "&H00FFFFFF"
  | .pyStr s =>
    let t := pyLstripChar '#' s
    if t.length = 6 then
      match pyIntHexStr (pySlice t 0 2) with
      | .error e => .error e
      | .ok r =>
        match pyIntHexStr (pySlice t 2 4) with
        | .error e => .error e
        | .ok g =>
          match pyIntHexStr (pySlice t 4 6) with
          | .error e => .error e
          | .ok b => .ok ("&H00" ++ pyFormat02X b ++ pyFormat02X g ++ pyFormat02X r)
    else .ok "&H00FFFFFF"

/-! ## Text transformations (ass_toolkit.py lines 191-201, 274-280) -/

def ciMatchesAt (pat l : List Char) : Bool :=
  startsWithList (pat.map Char.toLower) (l.map Char.toLower)

/-- One pass of re.sub(re.escape(old), new, text, flags=IGNORECASE):
leftmost non-overlapping case-insensitive literal replacement (the
replacement string is inserted literally; backslash template escapes in the
replacement are outside the claims and not modelled). -/
def ciReplaceAux (old new : List Char) : ℕ → List Char → List Char
  | 0, rest => rest
  | _+1, [] => if old = [] then new else []
  | fuel+1, c :: cs =>
    if old ≠ [] ∧ ciMatchesAt old (c :: cs) then
      new ++ ciReplaceAux old new fuel ((c :: cs).drop old.length)
    else if old = [] then new ++ c :: ciReplaceAux old new fuel cs
    else c :: ciReplaceAux old new fuel cs

def ciReplace (old new text : String) : String :=
  String.mk (ciReplaceAux old.toList new.toList (text.toList.length + 1) text.toList)

/-- Chunk a list into groups of k (k ≥ 1), like
`[l[i:i+k] for i in range(0, len(l), k)]`. -/
def chunkListAux {α : Type} (k : ℕ) : ℕ → List α → List (List α)
  | 0, _ => []
  | _, [] => []
  | fuel+1, l => l.take k :: chunkListAux k fuel (l.drop (max k 1))

def chunkList {α : Type} (k : ℕ) (l : List α) : List (List α) :=
  chunkListAux k l.length l

/-- `process_subtitle_text(text, replace_dict, all_caps, max_words_per_line)`. -/
def process_subtitle_text (text : String) (replace_dict : List (String × String))
    (all_caps : Bool) (max_words_per_line : ℤ) : String :=
  let t1 := replace_dict.foldl (fun t p => ciReplace p.1 p.2 t) text
  let t2 := if all_caps then toUpperStr t1 else t1
  if max_words_per_line > 0 then
    String.intercalate "\\N"
      ((chunkList max_words_per_line.toNat (pySplitWs t2)).map (String.intercalate " "))
  else t2

/-- `split_lines(text, max_words_per_line)`. -/
def split_lines (text : String) (max_words_per_line : ℤ) : List String :=
  if max_words_per_line ≤ 0 then [text]
  else (chunkList max_words_per_line.toNat (pySplitWs text)).map (String.intercalate " ")

/-! ## is_url (ass_toolkit.py lines 282-288) -/

/-- urlparse-based scheme check: the scheme is the lowercased prefix before
the first colon when it is a letter followed by letters, digits, `+`, `-`,
`.`. -/
def is_url (s : String) : Bool :=
  let l := s.toList
  if l.contains ':' then
    let p := l.takeWhile (· ≠ ':')
    match p with
    | [] => false
    | c :: rest =>
      isAlphaChar c &&
      rest.all (fun d => isAlphaChar d || isDigitChar d || d = '+' || d = '-' || d = '.') &&
      (String.mk ((c :: rest).map Char.toLower) = "http" ||
       String.mk ((c :: rest).map Char.toLower) = "https")
  else false

/-! ## determine_alignment_code (ass_toolkit.py lines 302-368) -/

def horizontal_map (alignment_str : String) : ℤ :=
  if alignment_str = "left" then 1
  else if alignment_str = "center" then 2
  else if alignment_str = "right" then 3
  else 2

/-- `determine_alignment_code(position_str, alignment_str, x, y, w, h)`.
Returns (an_code, use_pos, final_x, final_y); the grid branch truncates the
computed coordinates with int(), the explicit branch returns x, y verbatim. -/
def determine_alignment_code (position_str alignment_str : String)
    (x y : Option ℚ) (video_width video_height : ℕ) : ℤ × Bool × ℚ × ℚ :=
  match x, y with
  | some xv, some yv =>
    let horiz_code := if alignment_str = "left" then 1
      else if alignment_str = "center" then 2
      else if alignment_str = "right" then 3 else 2
    (4 + (horiz_code - 1), true, xv, yv)
  | _, _ =>
    let pos_lower := toLowerStr position_str
    let vh : ℚ := video_height
    let vw : ℚ := video_width
    let vertical_base : ℤ :=
      if containsSubstr pos_lower "top" then 7
      else if containsSubstr pos_lower "middle" then 4 else 1
    let vertical_center : ℚ :=
      if containsSubstr pos_lower "top" then vh / 6
      else if containsSubstr pos_lower "middle" then vh / 2 else 5 * vh / 6
    let lbr : ℚ × ℚ × ℚ :=
      if containsSubstr pos_lower "left" then (0, vw / 3, vw / 6)
      else if containsSubstr pos_lower "right" then (2 * vw / 3, vw, 5 * vw / 6)
      else (vw / 3, 2 * vw / 3, vw / 2)
    let fxh : ℚ × ℤ :=
      if alignment_str = "left" then (lbr.1, 1)
      else if alignment_str = "right" then (lbr.2.1, 3)
      else (lbr.2.2, 2)
    let an_code := vertical_base + (fxh.2 - 1)
    (an_code, true, (pyInt fxh.1 : ℚ), (pyInt vertical_center : ℚ))

/-! ## parse_time_string (ass_toolkit.py lines 788-803) -/

/-- Match of the anchored pattern `^(?:(\d+):)?(\d{1,2}):(\d{2}(?:\.\d{1,3})?)$`,
returning the numeric values of the three groups (group 1 defaulting to 0). -/
def matchTimePattern (s : String) : Option (ℤ × ℤ × ℚ) :=
  let secOk : List Char → Option ℚ := fun l =>
    match l with
    | a :: b :: rest =>
      if isDigitChar a ∧ isDigitChar b then
        match rest with
        | [] => some ((10 * decDigitVal a + decDigitVal b : ℕ) : ℚ)
        | '.' :: fr =>
          if fr.length ≥ 1 ∧ fr.length ≤ 3 ∧ fr.all isDigitChar then
            some (((10 * decDigitVal a + decDigitVal b : ℕ) : ℚ) + fracDigitsVal fr)
          else none
        | _ => none
      else none
    | _ => none
  let digitsOk : List Char → Option ℤ := fun l =>
    if l ≠ [] ∧ l.all isDigitChar then digitsValue 10 isDigitChar decDigitVal l else none
  match splitCharAux ':' [] s.toList with
  | [m, sec] =>
    (match digitsOk m, secOk sec with
     | some mv, some sv => if m.length ≤ 2 then some (0, mv, sv) else none
     | _, _ => none)
  | [h, m, sec] =>
    (match digitsOk h, digitsOk m, secOk sec with
     | some hv, some mv, some sv => if m.length ≤ 2 then some (hv, mv, sv) else none
     | _, _, _ => none)
  | _ => none

/-- `parse_time_string(time_str)`: hh:mm:ss.ms, mm:ss.ms, or bare ss.ms. -/
def parse_time_string (time_str : String) : Except String ℚ :=
  match matchTimePattern time_str with
  | some g => .ok ((g.1 : ℚ) * 3600 + (g.2.1 : ℚ) * 60 + g.2.2)
  | none =>
    match pyFloat time_str with
    | .ok v => .ok v
    | .error _ => .error ("Invalid time string: " ++ time_str)

/-! ## parse_ass_time and filter_subtitle_lines (ass_toolkit.py lines 805-858) -/

/-- The successful branch of the inner parse_ass_time helper. -/
def parseAssTimeOpt (ass_time : String) : Option ℚ :=
  match pySplitChar ':' ass_time with
  | [h, m, rest] =>
    (match pySplitChar '.' rest with
     | [s, cs] =>
       (match pyIntDec h, pyIntDec m, pyIntDec s, pyIntDec cs with
        | .ok hz, .ok mz, .ok sz, .ok csz =>
          some ((hz : ℚ) * 3600 + (mz : ℚ) * 60 + (sz : ℚ) + (csz : ℚ) / 100)
        | _, _, _, _ => none)
     | _ => none)
  | _ => none

/-- `parse_ass_time(ass_time)`: any parse failure is caught and yields 0. -/
def parse_ass_time (ass_time : String) : ℚ := (parseAssTimeOpt ass_time).getD 0

/-- Per-line keep decision of the ASS branch of filter_subtitle_lines,
against already-parsed ranges. -/
def ass_line_kept (line : String) (parsed_ranges : List (ℚ × ℚ)) : Bool :=
  if pyStartsWith line "Dialogue:" then
    let parts := pySplitMax ',' 10 line
    if parts.length > 3 then
      let start := parse_ass_time (parts.getD 1 "")
      let stop := parse_ass_time (parts.getD 2 "")
      ! parsed_ranges.any (fun rng => start < rng.2 && stop > rng.1)
    else true
  else true

/-! ## Data model -/

structure WordTiming where
  word : String
  start : ℚ
  «end» : ℚ
deriving DecidableEq

structure Segment where
  start : ℚ
  «end» : ℚ
  text : String
  words : List WordTiming
deriving DecidableEq

structure TranscriptionResult where
  segments : List Segment
deriving DecidableEq

/-- One subtitle block as produced by the external srt library. -/
structure SrtSub where
  start : ℚ
  «end» : ℚ
  content : String
deriving DecidableEq

/-- Typed model of the merged style-options dictionary (defaults are the
default_style_settings of srt_to_ass, lines 741-762; the purely cosmetic
header fields keep their rendered string form). -/
structure StyleOptions where
  line_color : String := "#FFFFFF"
  word_color : String := "#FFFF00"
  box_color : String := "#000000"
  back_color : Option String := none
  outline_color : String := "#000000"
  all_caps : Bool := false
  max_words_per_line : ℤ := 0
  font_size : Option ℚ := none
  font_family : String := "Arial"
  bold : Bool := false
  italic : Bool := false
  underline : Bool := false
  strikeout : Bool := false
  scale_x : String := "100"
  scale_y : String := "100"
  spacing : String := "0"
  angle : String := "0"
  outline_width : String := "2"
  shadow_offset : String := "0"
  border_style : String := "1"
  box : Bool := false
  margin_l : String := "20"
  margin_r : String := "20"
  margin_v : String := "20"
  x : Option ℚ := none
  y : Option ℚ := none
  position : String := "middle_center"
  alignment : String := "center"
  style : String := "classic"
  highlight_color : Option String := none
deriving DecidableEq

/-- Environment of external collaborators: font catalog, network, video
probing, the srt library, transcription and the filesystem write. -/
structure Env where
  available_fonts : List String
  ass_font_resolver : String → String
  caption_download : Except String String
  video_download : Except String String
  video_resolution : ℕ × ℕ
  video_duration : Option ℚ
  transcription : Except String TranscriptionResult
  srtParse : String → Option (List SrtSub)
  srtParseErrMsg : String
  srtCompose : List SrtSub → String
  write_ok : Bool
  write_error : String
  local_storage_path : String

/-- Python number rendering inside f-strings: integers print without a
decimal part. -/
def ratPyStr (q : ℚ) : String :=
  if q.den = 1 then String.mk (intDecChars q.num) else toString q

/-! ## Caption source normalization (ass_toolkit.py lines 203-272) -/

/-- `is_srt_format(content)`: strip, then try srt.parse on the stripped
content and require at least one subtitle. -/
def is_srt_format (env : Env) (content : String) : Bool :=
  if content = "" then false
  else
    let c := pyStrip content
    if c = "" then false
    else match env.srtParse c with
      | some subs => subs.length > 0
      | none => false

/-- `srt_to_transcription_result(srt_content)` applied to the parsed blocks:
one segment per subtitle, empty word list. -/
def srt_to_transcription_result (subs : List SrtSub) : TranscriptionResult :=
  ⟨subs.map (fun sub => ⟨sub.start, sub.«end», pyStrip sub.content, []⟩)⟩

/-- `plain_text_to_transcription_result(text, video_duration)`. -/
def plain_text_to_transcription_result (text : String) (video_duration : Option ℚ) :
    TranscriptionResult :=
  let dur := match video_duration with
    | some d => if d ≤ 0 then 10 else d
    | none => 10
  ⟨[⟨0, dur, pyStrip text, []⟩]⟩

/-! ## Style header (ass_toolkit.py lines 370-445) -/

inductive StyleOut where
  | ok (s : String)
  | fontError (msg : String) (fonts : List String)
  | raised (msg : String)
deriving DecidableEq

def fontNotAvailableMsg (font_family : String) : String :=
  "Font '" ++ font_family ++ "' not available."

/-- `create_style_line(style_options, video_resolution)`: font check, then
color conversion (which can raise ValueError), then the Default style line. -/
def create_style_line (env : Env) (so : StyleOptions) (vr : ℕ × ℕ) : StyleOut :=
  let available_fonts := env.available_fonts
  if ¬ (available_fonts.map toLowerStr).contains (toLowerStr so.font_family) then
    .fontError (fontNotAvailableMsg so.font_family) available_fonts
  else
    let ass_font_name := env.ass_font_resolver so.font_family
    match rgb_to_ass_color (.pyStr so.line_color) with
    | .error e => .raised e
    | .ok line_color =>
      match rgb_to_ass_color (.pyStr so.outline_color) with
      | .error e => .raised e
      | .ok outline_color =>
        let back_or_box := match so.back_color with
          | some bc => if bc = "" then so.box_color else bc
          | none => so.box_color
        match rgb_to_ass_color (.pyStr back_or_box) with
        | .error e => .raised e
        | .ok box_color =>
          let font_size : ℚ := (so.font_size).getD ((pyInt ((vr.2 : ℚ) * (5/100)) : ℚ))
          let b := if so.bold then "1" else "0"
          let i := if so.italic then "1" else "0"
          let u := if so.underline then "1" else "0"
          let st := if so.strikeout then "1" else "0"
          let border_style := if so.box then "3" else so.border_style
          .ok ("Style: Default," ++ ass_font_name ++ "," ++ ratPyStr font_size ++ ","
            ++ line_color ++ "," ++ line_color ++ "," ++ outline_color ++ ","
            ++ box_color ++ "," ++ b ++ "," ++ i ++ "," ++ u ++ "," ++ st ++ ","
            ++ so.scale_x ++ "," ++ so.scale_y ++ "," ++ so.spacing ++ ","
            ++ so.angle ++ "," ++ border_style ++ "," ++ so.outline_width ++ ","
            ++ so.shadow_offset ++ ",5," ++ so.margin_l ++ "," ++ so.margin_r ++ ","
            ++ so.margin_v ++ ",0")

/-- `generate_ass_header(style_options, video_resolution)`. -/
def generate_ass_header (env : Env) (so : StyleOptions) (vr : ℕ × ℕ) : StyleOut :=
  let pre := "[Script Info]\nScriptType: v4.00+\nPlayResX: "
    ++ String.mk (natDecChars vr.1) ++ "\nPlayResY: " ++ String.mk (natDecChars vr.2)
    ++ "\nScaledBorderAndShadow: yes\n\n[V4+ Styles]\nFormat: Name, Fontname, Fontsize, PrimaryColour, SecondaryColour, OutlineColour, BackColour, Bold, Italic, Underline, StrikeOut, ScaleX, ScaleY, Spacing, Angle, BorderStyle, Outline, Shadow, Alignment, MarginL, MarginR, MarginV, Encoding\n"
  match create_style_line env so vr with
  | .fontError m f => .fontError m f
  | .raised m => .raised m
  | .ok style_line =>
    .ok (pre ++ style_line
      ++ "\n\n[Events]\nFormat: Layer, Start, End, Style, Name, MarginL, MarginR, MarginV, Effect, Text\n")

/-! ## Style handlers (ass_toolkit.py lines 447-735) -/

def positionTag (an : ℤ) (fx fy : ℚ) : String :=
  "\x7b\\an" ++ String.mk (intDecChars an) ++ "\\pos(" ++ ratPyStr fx ++ ","
    ++ ratPyStr fy ++ ")\x7d"

def dialogueLine (layer : ℕ) (startT endT tail : String) : String :=
  "Dialogue: " ++ String.mk (natDecChars layer) ++ "," ++ startT ++ "," ++ endT
    ++ ",Default,,0,0,0,," ++ tail

def colorTag (color : String) : String := "\x7b\\c" ++ color ++ "\x7d"

/-- One karaoke word: `{\kD}word␣` with D the duration in centiseconds. -/
def karaokeWordTag (rd : List (String × String)) (caps : Bool) (w : WordTiming) : String :=
  "\x7b\\k" ++ String.mk (intDecChars (pyRound ((w.«end» - w.start) * 100))) ++ "\x7d"
    ++ process_subtitle_text w.word rd caps 0 ++ " "

def handle_classic_events (tr : TranscriptionResult) (so : StyleOptions)
    (rd : List (String × String)) (vr : ℕ × ℕ) : List String :=
  let r := determine_alignment_code so.position so.alignment so.x so.y vr.1 vr.2
  let ptag := positionTag r.1 r.2.2.1 r.2.2.2
  tr.segments.map (fun seg =>
    let text := pyReplaceChar '\n' ' ' (pyStrip seg.text)
    let lines := split_lines text so.max_words_per_line
    let processed := String.intercalate "\\N"
      (lines.map (fun l => process_subtitle_text l rd so.all_caps 0))
    dialogueLine 0 (format_ass_time seg.start) (format_ass_time seg.«end»)
      (ptag ++ processed))

/-- `handle_classic`: one dialogue event per segment; the raw text is split
into lines first, each line is then processed with max_words_per_line 0. -/
def handle_classic (tr : TranscriptionResult) (so : StyleOptions)
    (rd : List (String × String)) (vr : ℕ × ℕ) : Except String String :=
  .ok (String.intercalate "\n" (handle_classic_events tr so rd vr))

def handle_karaoke_events (tr : TranscriptionResult) (so : StyleOptions)
    (rd : List (String × String)) (vr : ℕ × ℕ) (word_color : String) : List String :=
  let r := determine_alignment_code so.position so.alignment so.x so.y vr.1 vr.2
  let ptag := positionTag r.1 r.2.2.1 r.2.2.2
  tr.segments.filterMap (fun seg =>
    match seg.words with
    | [] => none
    | w0 :: rest =>
      let ws := w0 :: rest
      let lines_content :=
        if so.max_words_per_line > 0 then
          (chunkList so.max_words_per_line.toNat ws).map
            (fun g => pyStrip (String.join (g.map (karaokeWordTag rd so.all_caps))))
        else [pyStrip (String.join (ws.map (karaokeWordTag rd so.all_caps)))]
      let dialogue_text := String.intercalate "\\N" lines_content
      some (dialogueLine 0 (format_ass_time w0.start)
        (format_ass_time ((rest.getLastD w0).«end»))
        (ptag ++ colorTag word_color ++ dialogue_text)))

def handle_karaoke (tr : TranscriptionResult) (so : StyleOptions)
    (rd : List (String × String)) (vr : ℕ × ℕ) : Except String String :=
  match rgb_to_ass_color (.pyStr so.word_color) with
  | .error e => .error e
  | .ok word_color =>
    .ok (String.intercalate "\n" (handle_karaoke_events tr so rd vr word_color))

/-- Words of a segment after per-word processing, dropping empties. -/
def processed_word_list (words : List WordTiming) (rd : List (String × String))
    (caps : Bool) : List (String × ℚ × ℚ) :=
  words.filterMap (fun w =>
    let t := process_subtitle_text w.word rd caps 0
    if t = "" then none else some (t, w.start, w.«end»))

def lineSets {α : Type} (mw : ℤ) (pw : List α) : List (List α) :=
  if mw > 0 then chunkList mw.toNat pw else [pw]

def handle_highlight_events (tr : TranscriptionResult) (so : StyleOptions)
    (rd : List (String × String)) (vr : ℕ × ℕ) (word_color line_color : String) :
    List String :=
  let r := determine_alignment_code so.position so.alignment so.x so.y vr.1 vr.2
  let ptag := positionTag r.1 r.2.2.1 r.2.2.2
  tr.segments.flatMap (fun seg =>
    match seg.words with
    | [] => []
    | _ :: _ =>
      let pw := processed_word_list seg.words rd so.all_caps
      match pw with
      | [] => []
      | _ :: _ =>
        (lineSets so.max_words_per_line pw).flatMap (fun ls =>
          match ls with
          | [] => []
          | p0 :: prest =>
            let base_text := String.intercalate " " (ls.map (·.1))
            let base := dialogueLine 0 (format_ass_time p0.2.1)
              (format_ass_time ((prest.getLastD p0).2.2))
              (ptag ++ colorTag line_color ++ base_text)
            let wordEvents := ls.enum.map (fun iw =>
              let highlighted_text := String.intercalate " " (ls.enum.map (fun jp =>
                if jp.1 = iw.1 then colorTag word_color ++ jp.2.1 ++ colorTag line_color
                else jp.2.1))
              dialogueLine 1 (format_ass_time iw.2.2.1) (format_ass_time iw.2.2.2)
                (ptag ++ colorTag line_color ++ highlighted_text))
            base :: wordEvents))

def handle_highlight (tr : TranscriptionResult) (so : StyleOptions)
    (rd : List (String × String)) (vr : ℕ × ℕ) : Except String String :=
  match rgb_to_ass_color (.pyStr so.word_color) with
  | .error e => .error e
  | .ok word_color =>
    match rgb_to_ass_color (.pyStr so.line_color) with
    | .error e => .error e
    | .ok line_color =>
      .ok (String.intercalate "\n" (handle_highlight_events tr so rd vr word_color line_color))

def handle_underline_events (tr : TranscriptionResult) (so : StyleOptions)
    (rd : List (String × String)) (vr : ℕ × ℕ) (line_color : String) : List String :=
  let r := determine_alignment_code so.position so.alignment so.x so.y vr.1 vr.2
  let ptag := positionTag r.1 r.2.2.1 r.2.2.2
  tr.segments.flatMap (fun seg =>
    match seg.words with
    | [] => []
    | _ :: _ =>
      let pw := processed_word_list seg.words rd so.all_caps
      match pw with
      | [] => []
      | _ :: _ =>
        (lineSets so.max_words_per_line pw).flatMap (fun ls =>
          ls.enum.map (fun iw =>
            let full_text := String.intercalate " " (ls.enum.map (fun jp =>
              if jp.1 = iw.1 then "\x7b\\u1\x7d" ++ jp.2.1 ++ "\x7b\\u0\x7d"
              else jp.2.1))
            dialogueLine 0 (format_ass_time iw.2.2.1) (format_ass_time iw.2.2.2)
              (ptag ++ colorTag line_color ++ full_text))))

def handle_underline (tr : TranscriptionResult) (so : StyleOptions)
    (rd : List (String × String)) (vr : ℕ × ℕ) : Except String String :=
  match rgb_to_ass_color (.pyStr so.line_color) with
  | .error e => .error e
  | .ok line_color =>
    .ok (String.intercalate "\n" (handle_underline_events tr so rd vr line_color))

def handle_word_by_word_events (tr : TranscriptionResult) (so : StyleOptions)
    (rd : List (String × String)) (vr : ℕ × ℕ) (word_color : String) : List String :=
  let r := determine_alignment_code so.position so.alignment so.x so.y vr.1 vr.2
  let ptag := positionTag r.1 r.2.2.1 r.2.2.2
  tr.segments.flatMap (fun seg =>
    match seg.words with
    | [] => []
    | _ :: _ =>
      (lineSets so.max_words_per_line seg.words).flatMap (fun g =>
        g.filterMap (fun w =>
          let t := process_subtitle_text w.word rd so.all_caps 0
          if t = "" then none
          else some (dialogueLine 0 (format_ass_time w.start) (format_ass_time w.«end»)
            (ptag ++ colorTag word_color ++ t)))))

def handle_word_by_word (tr : TranscriptionResult) (so : StyleOptions)
    (rd : List (String × String)) (vr : ℕ × ℕ) : Except String String :=
  match rgb_to_ass_color (.pyStr so.word_color) with
  | .error e => .error e
  | .ok word_color =>
    .ok (String.intercalate "\n" (handle_word_by_word_events tr so rd vr word_color))

/-- `srt_to_ass(transcription_result, style_type, settings, replace_dict,
video_resolution)`: default the font size, build the header, dispatch on the
lowercased style name (unknown names fall back to classic), join. -/
def srt_to_ass (env : Env) (tr : TranscriptionResult) (style_type : String)
    (settings : StyleOptions) (rd : List (String × String)) (vr : ℕ × ℕ) : StyleOut :=
  let so := {settings with
    font_size := some ((settings.font_size).getD ((pyInt ((vr.2 : ℚ) * (5/100)) : ℚ)))}
  match generate_ass_header env so vr with
  | .fontError m f => .fontError m f
  | .raised m => .raised m
  | .ok hdr =>
    let st := toLowerStr style_type
    let body : Except String String :=
      if st = "karaoke" then handle_karaoke tr so rd vr
      else if st = "highlight" then handle_highlight tr so rd vr
      else if st = "underline" then handle_underline tr so rd vr
      else if st = "word_by_word" then handle_word_by_word tr so rd vr
      else handle_classic tr so rd vr
    match body with
    | .error e => .raised e
    | .ok b => .ok (hdr ++ b ++ "\n")

def process_subtitle_events (env : Env) (tr : TranscriptionResult) (style_type : String)
    (settings : StyleOptions) (rd : List (String × String)) (vr : ℕ × ℕ) : StyleOut :=
  srt_to_ass env tr style_type settings rd vr

/-! ## Exclusion filter (ass_toolkit.py lines 805-874) -/

/-- `filter_subtitle_lines(sub_content, exclude_time_ranges, subtitle_type)`:
ranges are re-parsed (parse_time_string can raise), an empty range list is a
no-op, the ASS branch filters physical lines by ass_line_kept, the SRT branch
goes through the external srt library. -/
def filter_subtitle_lines (env : Env) (sub_content : String)
    (exclude_time_ranges : List (String × String)) (subtitle_type : String) :
    Except String String :=
  match exclude_time_ranges.mapM (fun rng => do
      let s ← parse_time_string rng.1
      let e ← parse_time_string rng.2
      pure (s, e)) with
  | .error e => .error e
  | .ok parsed_ranges =>
    if exclude_time_ranges.isEmpty then .ok sub_content
    else if subtitle_type = "ass" then
      .ok (String.intercalate "\n"
        ((pySplitlines sub_content).filter (fun line => ass_line_kept line parsed_ranges)))
    else if subtitle_type = "srt" then
      match env.srtParse sub_content with
      | none => .error env.srtParseErrMsg
      | some subs =>
        .ok (env.srtCompose (subs.filter (fun sub =>
          ! parsed_ranges.any (fun rng => sub.start < rng.2 && sub.«end» > rng.1))))
    else .ok sub_content

/-- A raw exclude-range entry; a missing or non-string start/end is None. -/
structure ExcludeRangeInput where
  start : Option String
  «end» : Option String
deriving DecidableEq

/-- `normalize_exclude_time_ranges(exclude_time_ranges)` (raises ValueError
on the first bad entry). -/
def normalize_exclude_time_ranges (l : List ExcludeRangeInput) :
    Except String (List (String × String)) :=
  l.mapM (fun rng =>
    match rng.start, rng.«end» with
    | some s, some e =>
      (match parse_time_string s with
       | .error m => .error m
       | .ok ss =>
         match parse_time_string e with
         | .error m => .error m
         | .ok es =>
           if ss < 0 ∨ es < 0 then
             .error "exclude_time_ranges start/end must be non-negative."
           else if es ≤ ss then
             .error "exclude_time_ranges end must be strictly greater than start."
           else .ok (s, e))
    | _, _ => .error "exclude_time_ranges start/end must be strings in hh:mm:ss.ms format.")

/-! ## Orchestrator (ass_toolkit.py lines 876-1032) -/

/-- One entry of the `replace` request parameter; a missing key is None. -/
structure ReplaceItem where
  find : Option String
  replace : Option String
deriving DecidableEq

/-- A captioning request.  `settings = none` models a non-dict settings
value, `replace = none` a non-list replace value. -/
structure Request where
  video_url : String
  captions : Option String
  settings : Option StyleOptions
  replace : Option (List ReplaceItem)
  exclude_time_ranges : List ExcludeRangeInput
  job_id : String
  playResX : Option ℕ
  playResY : Option ℕ

/-- Python dict assignment d[k] = v: update in place or append. -/
def updateAssoc (l : List (String × String)) (k v : String) : List (String × String) :=
  if l.any (fun p => p.1 = k) then l.map (fun p => if p.1 = k then (k, v) else p)
  else l ++ [(k, v)]

/-- Convert the replace list to a dict, skipping invalid items. -/
def buildReplaceDict (items : List ReplaceItem) : List (String × String) :=
  items.foldl (fun d item =>
    match item.find, item.replace with
    | some f, some r => updateAssoc d f r
    | _, _ => d) []

/-- Merge the deprecated highlight_color into word_color. -/
def mergeHighlightColor (so : StyleOptions) : StyleOptions :=
  match so.highlight_color with
  | some c => {so with word_color := c, highlight_color := none}
  | none => so

/-- Lines 927-938: captions as URL (downloaded), raw content, or absent. -/
def resolve_captions (env : Env) (captions : Option String) :
    Except String (Option String) :=
  match captions with
  | none => .ok none
  | some c =>
    if c ≠ "" && is_url c then
      match env.caption_download with
      | .ok content => .ok (some content)
      | .error e => .error ("Failed to download captions: " ++ e)
    else if c ≠ "" then .ok (some c)
    else .ok none

/-- A structured error value `{"error": ..., "available_fonts": ...?}`. -/
structure ErrVal where
  error : String
  available_fonts : Option (List String)
deriving DecidableEq

instance exceptDecEq {ε α : Type} [DecidableEq ε] [DecidableEq α] :
    DecidableEq (Except ε α) := fun x y =>
  match x, y with
  | .ok a, .ok b =>
    if h : a = b then .isTrue (by rw [h]) else .isFalse (by intro hh; cases hh; exact h rfl)
  | .error a, .error b =>
    if h : a = b then .isTrue (by rw [h]) else .isFalse (by intro hh; cases hh; exact h rfl)
  | .ok _, .error _ => .isFalse (by intro hh; cases hh)
  | .error _, .ok _ => .isFalse (by intro hh; cases hh)

/-- Result of a request together with the file persisted for it (path and
contents), if any. -/
structure GenOutcome where
  result : Except ErrVal String
  written : Option (String × String)
deriving DecidableEq

/-- Outcome of the caption-content classification (lines 961-999): an
immediate structured-error return, an exception propagating to the outer
handler, or a produced subtitle_content. -/
inductive ContentStep where
  | earlyError (e : ErrVal)
  | raisedStep (msg : String)
  | produced (out : StyleOut)
deriving DecidableEq

def build_subtitle_content (env : Env) (so : StyleOptions) (style_type : String)
    (rd : List (String × String)) (vr : ℕ × ℕ) :
    Option String → ContentStep
  | some content =>
    if containsSubstr content "[Script Info]" then .produced (.ok content)
    else if is_srt_format env content then
      if style_type ≠ "classic" then
        .earlyError ⟨"Only 'classic' style is supported for SRT captions.", none⟩
      else
        match env.srtParse content with
        | none => .earlyError ⟨"Invalid SRT format: " ++ env.srtParseErrMsg, none⟩
        | some subs =>
          .produced (process_subtitle_events env (srt_to_transcription_result subs)
            style_type so rd vr)
    else
      .produced (process_subtitle_events env
        (plain_text_to_transcription_result content env.video_duration) style_type so rd vr)
  | none =>
    match env.transcription with
    | .error e => .raisedStep e
    | .ok tr => .produced (process_subtitle_events env tr style_type so rd vr)

/-- `generate_ass_captions_v1(video_url, captions, settings, replace,
exclude_time_ranges, job_id, ...)`: the whole orchestrator.  Every internal
raise is caught at the outer boundary and converted to a structured error;
the subtitle file write is modelled as atomic (all or nothing). -/
def generate_ass_captions_v1 (env : Env) (req : Request) : GenOutcome :=
  match (if req.exclude_time_ranges.isEmpty then .ok []
         else normalize_exclude_time_ranges req.exclude_time_ranges) with
  | .error e => ⟨.error ⟨e, none⟩, none⟩
  | .ok normRanges =>
    match req.settings with
    | none => ⟨.error ⟨"'settings' should be a dictionary.", none⟩, none⟩
    | some so0 =>
      match req.replace with
      | none => ⟨.error ⟨"'replace' should be a list of objects with 'find' and 'replace' keys.", none⟩, none⟩
      | some replaceItems =>
        let replace_dict := buildReplaceDict replaceItems
        let so := mergeHighlightColor so0
        if ¬ (env.available_fonts.map toLowerStr).contains (toLowerStr so.font_family) then
          ⟨.error ⟨fontNotAvailableMsg so.font_family, some env.available_fonts⟩, none⟩
        else
          match resolve_captions env req.captions with
          | .error e => ⟨.error ⟨e, none⟩, none⟩
          | .ok captions_content =>
            match env.video_download with
            | .error e => ⟨.error ⟨e, none⟩, none⟩
            | .ok _video_path =>
              let vr := match req.playResX, req.playResY with
                | some w, some h => (w, h)
                | _, _ => env.video_resolution
              let style_type := toLowerStr so.style
              match build_subtitle_content env so style_type replace_dict vr captions_content with
              | .earlyError e => ⟨.error e, none⟩
              | .raisedStep m => ⟨.error ⟨m, none⟩, none⟩
              | .produced (.raised m) => ⟨.error ⟨m, none⟩, none⟩
              | .produced (.fontError m fonts2) => ⟨.error ⟨m, some fonts2⟩, none⟩
              | .produced (.ok subtitle_content) =>
                match (if normRanges.isEmpty then .ok subtitle_content
                       else filter_subtitle_lines env subtitle_content normRanges "ass") with
                | .error m => ⟨.error ⟨m, none⟩, none⟩
                | .ok finalContent =>
                  let path := env.local_storage_path ++ "/" ++ req.job_id ++ ".ass"
                  if env.write_ok then ⟨.ok path, some (path, finalContent)⟩
                  else ⟨.error ⟨"Failed to save subtitle file: " ++ env.write_error, none⟩, none⟩

def exceptIsOk {ε α : Type} : Except ε α → Bool
  | .ok _ => true
  | .error _ => false

/-- Byte value of two hex digit characters. -/
def hexByteVal (a b : Char) : ℤ := 16 * (hexDigitVal a : ℤ) + (hexDigitVal b : ℤ)

/-- The per-segment dialogue text actually produced by handle_classic:
split first, then per-line replacement/uppercasing with no further split. -/
def classicLineText (text : String) (rd : List (String × String)) (caps : Bool)
    (mw : ℤ) : String :=
  String.intercalate "\\N"
    ((split_lines (pyReplaceChar '\n' ' ' (pyStrip text)) mw).map
      (fun l => process_subtitle_text l rd caps 0))

/-- The constant anchor/position tag of a classic style run. -/
def classicPosTag (so : StyleOptions) (vr : ℕ × ℕ) : String :=
  let r := determine_alignment_code so.position so.alignment so.x so.y vr.1 vr.2
  positionTag r.1 r.2.2.1 r.2.2.2

/-- A concrete environment used to instantiate theorems at concrete
requests. -/
def testEnv : Env where
  available_fonts := ["Arial"]
  ass_font_resolver := fun s => s
  caption_download := .error "network unavailable"
  video_download := .ok "/tmp/video.mp4"
  video_resolution := (1920, 1080)
  video_duration := some 10
  transcription := .error "no transcription"
  srtParse := fun s => if pyStartsWith s "1" = true then some [⟨0, 5, "Hello"⟩] else none
  srtParseErrMsg := "parse error"
  srtCompose := fun _ => ""
  write_ok := true
  write_error := "disk full"
  local_storage_path := "/tmp"

/-- Base-10 value of a digit list, most significant digit first. -/
def decValue (l : List Char) : ℤ := l.foldl (fun a c => 10 * a + (decDigitVal c : ℤ)) 0

/-- A concrete request with an unavailable font. -/
def testReqFontMissing : Request where
  video_url := "http://v"
  captions := none
  settings := some {font_family := "Nope"}
  replace := some []
  exclude_time_ranges := []
  job_id := "job1"
  playResX := none
  playResY := none

/-- A concrete request with SRT captions and a non-classic style. -/
def testReqSrtKaraoke : Request where
  video_url := "http://v"
  captions := some "1\n00:00:00,000 --> 00:00:05,000\nHello"
  settings := some {style := "karaoke"}
  replace := some []
  exclude_time_ranges := []
  job_id := "job1"
  playResX := none
  playResY := none

/-! ## Theorems -/

theorem ratFloor_eq (q : ℚ) : ratFloor q = ⌊q⌋ := Rat.floor_def.symm

theorem toList_mk (l : List Char) : (String.mk l).toList = l := rfl

theorem length_mk (l : List Char) : (String.mk l).length = l.length := rfl

/-- Claim C1 (code_bug): the claimed examples format_ass_time(0) = "0:00:00.00"
and format_ass_time(3661.5) = "1:01:01.50" hold, but the carry claimed for
centiseconds that round to 100 does not happen: at seconds = 1.999 the code
emits "0:00:01.100" — a three-digit centisecond field with no carry into
seconds — instead of the "0:00:02.00" the claim requires. -/
theorem C1_no_centisecond_carry :
    format_ass_time 0 = "0:00:00.00" ∧
    format_ass_time (7323/2) = "1:01:01.50" ∧
    format_ass_time (1999/1000) = "0:00:01.100" := by
  refine ⟨?_, ?_, ?_⟩ <;> with_unfolding_all rfl

theorem mk_toList (s : String) : String.mk s.toList = s := rfl

theorem hexDigit_toNat {c : Char} (h : isHexDigitChar c = true) :
    (48 ≤ c.toNat ∧ c.toNat ≤ 57) ∨ (97 ≤ c.toNat ∧ c.toNat ≤ 102) ∨
    (65 ≤ c.toNat ∧ c.toNat ≤ 70) := by
  have h' : (48 ≤ c.toNat ∧ c.toNat ≤ 57 ∨ 97 ≤ c.toNat ∧ c.toNat ≤ 102) ∨
      65 ≤ c.toNat ∧ c.toNat ≤ 70 := by
    simpa [isHexDigitChar, Bool.or_eq_true, Bool.and_eq_true, decide_eq_true_eq] using h
  tauto

theorem hex_not_ws {c : Char} (h : isHexDigitChar c = true) : isPyWsChar c = false := by
  have hr := hexDigit_toNat h
  simp only [isPyWsChar, Bool.or_eq_false_iff, decide_eq_false_iff_not]
  omega

theorem hex_ne_plus {c : Char} (h : isHexDigitChar c = true) : c ≠ '+' := by
  intro hc
  rw [hc] at h
  exact absurd h (by decide)

theorem hex_ne_minus {c : Char} (h : isHexDigitChar c = true) : c ≠ '-' := by
  intro hc
  rw [hc] at h
  exact absurd h (by decide)

theorem hex_pair_parse (a b : Char) (ha : isHexDigitChar a = true)
    (hb : isHexDigitChar b = true) :
    pyIntHexStr (String.mk [a, b]) = .ok (hexByteVal a b) := by
  have hwa := hex_not_ws ha
  have hwb := hex_not_ws hb
  have hpa := hex_ne_plus ha
  have hma := hex_ne_minus ha
  unfold pyIntHexStr
  simp only [toList_mk, pyStripList, List.dropWhile, hwa, hwb, List.reverse_cons,
    List.reverse_nil, List.nil_append, List.cons_append, List.singleton_append,
    Bool.false_eq_true, if_false, splitSign, hpa, hma, if_neg, digitsValue, ha,
    if_true, digitsValueAux, hb, hexByteVal]
  norm_num

theorem exists_len6 {α : Type} {l : List α} (h : l.length = 6) :
    ∃ a b c d e f, l = [a, b, c, d, e, f] := by
  match l, h with
  | [a, b, c, d, e, f], _ => exact ⟨a, b, c, d, e, f, rfl⟩

/-- Claim C2 (counterexample): on the six-character non-hex input "zzzzzz"
the function raises ValueError instead of returning the "&H00FFFFFF"
fallback, so the "never raises" part of the claim is false. -/
theorem C2_counterexample :
    exceptIsOk (rgb_to_ass_color (.pyStr "zzzzzz")) = false := by
  with_unfolding_all rfl

/-- Claim C2 (amended): rgb_to_ass_color strips all leading '#' characters;
if exactly 6 hex digits remain it returns "&H00" ++ BB ++ GG ++ RR with each
byte rendered as two uppercase hex digits; a stripped length other than 6 or
a non-string input yields the fallback "&H00FFFFFF"; but when 6 characters
remain and one of the three two-character slices is not parseable by
int(-, 16), the function raises instead of returning the fallback.  The
claimed examples for "#FF0000" and "red" hold. -/
theorem C2_rgb_to_ass_color_amended :
    (∀ s : String,
      (pyLstripChar '#' s).toList.length = 6 →
      (pyLstripChar '#' s).toList.all isHexDigitChar = true →
      rgb_to_ass_color (.pyStr s) = .ok ("&H00"
        ++ pyFormat02X (hexByteVal ((pyLstripChar '#' s).toList.getD 4 'x')
            ((pyLstripChar '#' s).toList.getD 5 'x'))
        ++ pyFormat02X (hexByteVal ((pyLstripChar '#' s).toList.getD 2 'x')
            ((pyLstripChar '#' s).toList.getD 3 'x'))
        ++ pyFormat02X (hexByteVal ((pyLstripChar '#' s).toList.getD 0 'x')
            ((pyLstripChar '#' s).toList.getD 1 'x')))) ∧
    (∀ s : String, (pyLstripChar '#' s).toList.length ≠ 6 →
      rgb_to_ass_color (.pyStr s) = .ok "&H00FFFFFF") ∧
    (rgb_to_ass_color .pyOther = .ok "&H00FFFFFF") ∧
    (∀ s : String, (pyLstripChar '#' s).toList.length = 6 →
      (exceptIsOk (pyIntHexStr (pySlice (pyLstripChar '#' s) 0 2)) = false ∨
       exceptIsOk (pyIntHexStr (pySlice (pyLstripChar '#' s) 2 4)) = false ∨
       exceptIsOk (pyIntHexStr (pySlice (pyLstripChar '#' s) 4 6)) = false) →
      exceptIsOk (rgb_to_ass_color (.pyStr s)) = false) ∧
    (∀ n : ℤ, 0 ≤ n → n < 256 → (pyFormat02X n).length = 2) ∧
    rgb_to_ass_color (.pyStr "#FF0000") = .ok "&H000000FF" ∧
    rgb_to_ass_color (.pyStr "red") = .ok "&H00FFFFFF" := by
  refine ⟨?_, ?_, ?_, ?_, ?_, ?_, ?_⟩
  · intro s h6 hall
    obtain ⟨c0, c1, c2, c3, c4, c5, hl⟩ := exists_len6 h6
    have hL : pyLstripChar '#' s = String.mk [c0, c1, c2, c3, c4, c5] := by
      conv_lhs => rw [← mk_toList (pyLstripChar '#' s), hl]
    rw [hl] at hall
    simp only [List.all_cons, List.all_nil, Bool.and_eq_true, Bool.and_true] at hall
    obtain ⟨h0, h1, h2, h3, h4, h5⟩ := hall
    have s01 : pySlice (String.mk [c0, c1, c2, c3, c4, c5]) 0 2 = String.mk [c0, c1] := by
      simp [pySlice]
    have s23 : pySlice (String.mk [c0, c1, c2, c3, c4, c5]) 2 4 = String.mk [c2, c3] := by
      simp [pySlice]
    have s45 : pySlice (String.mk [c0, c1, c2, c3, c4, c5]) 4 6 = String.mk [c4, c5] := by
      simp [pySlice]
    simp only [rgb_to_ass_color, hL]
    rw [if_pos (show (String.mk [c0, c1, c2, c3, c4, c5]).length = 6 from by simp [length_mk])]
    rw [s01, s23, s45, hex_pair_parse c0 c1 h0 h1, hex_pair_parse c2 c3 h2 h3,
      hex_pair_parse c4 c5 h4 h5]
    simp [List.getD]
  · intro s h6
    have h6' : ¬ (pyLstripChar '#' s).length = 6 := h6
    simp only [rgb_to_ass_color]
    rw [if_neg h6']
  · rfl
  · intro s h6 hbad
    obtain ⟨c0, c1, c2, c3, c4, c5, hl⟩ := exists_len6 h6
    have hL : pyLstripChar '#' s = String.mk [c0, c1, c2, c3, c4, c5] := by
      conv_lhs => rw [← mk_toList (pyLstripChar '#' s), hl]
    rw [hL] at hbad
    simp only [rgb_to_ass_color, hL]
    rw [if_pos (show (String.mk [c0, c1, c2, c3, c4, c5]).length = 6 from by simp [length_mk])]
    cases hx0 : pyIntHexStr (pySlice (String.mk [c0, c1, c2, c3, c4, c5]) 0 2) with
    | error e0 => simp [exceptIsOk]
    | ok v0 =>
      cases hx1 : pyIntHexStr (pySlice (String.mk [c0, c1, c2, c3, c4, c5]) 2 4) with
      | error e1 => simp [exceptIsOk]
      | ok v1 =>
        cases hx2 : pyIntHexStr (pySlice (String.mk [c0, c1, c2, c3, c4, c5]) 4 6) with
        | error e2 => simp [exceptIsOk]
        | ok v2 =>
          rw [hx0, hx1, hx2] at hbad
          simp [exceptIsOk] at hbad
  · intro n h0 h256
    have hn : n.toNat < 256 := by omega
    have key : ∀ m : ℕ, m < 256 → (padLeftZero 2 (natHexChars m)).length = 2 := by decide
    simp only [pyFormat02X, if_neg (show ¬ n < 0 by omega), length_mk]
    exact key n.toNat hn
  · with_unfolding_all rfl
  · with_unfolding_all rfl

/-- Claim C2 witness: instantiation of the amended theorem on "#00FF7F". -/
theorem C2_rgb_to_ass_color_amended_witness :
    rgb_to_ass_color (.pyStr "#00FF7F") = .ok ("&H00"
      ++ pyFormat02X (hexByteVal ((pyLstripChar '#' "#00FF7F").toList.getD 4 'x')
          ((pyLstripChar '#' "#00FF7F").toList.getD 5 'x'))
      ++ pyFormat02X (hexByteVal ((pyLstripChar '#' "#00FF7F").toList.getD 2 'x')
          ((pyLstripChar '#' "#00FF7F").toList.getD 3 'x'))
      ++ pyFormat02X (hexByteVal ((pyLstripChar '#' "#00FF7F").toList.getD 0 'x')
          ((pyLstripChar '#' "#00FF7F").toList.getD 1 'x'))) :=
  C2_rgb_to_ass_color_amended.1 "#00FF7F" (by with_unfolding_all rfl)
    (by with_unfolding_all rfl)

/-- Claim C4: for ASS content, a Dialogue line (with at least three commas,
so that its time fields exist) is dropped iff its parsed start/end overlaps
some exclude range under the strict test start < rangeEnd AND end >
rangeStart; non-dialogue lines always pass; an empty ranges list returns the
content unchanged; and the concrete boundary examples hold: the 0-5 dialogue
is dropped for range [2,3] and kept for the touching range [5,6]. -/
theorem C4_filter_overlap :
    (∀ env content kind,
      filter_subtitle_lines env content [] kind = .ok content) ∧
    (∀ line (R : List (ℚ × ℚ)), pyStartsWith line "Dialogue:" = true →
      (pySplitMax ',' 10 line).length > 3 →
      (ass_line_kept line R = false ↔
        ∃ rng ∈ R, parse_ass_time ((pySplitMax ',' 10 line).getD 1 "") < rng.2 ∧
          parse_ass_time ((pySplitMax ',' 10 line).getD 2 "") > rng.1)) ∧
    (∀ line (R : List (ℚ × ℚ)), pyStartsWith line "Dialogue:" = false →
      ass_line_kept line R = true) ∧
    (∀ env, filter_subtitle_lines env
      "[Script Info]\nDialogue: 0,0:00:00.00,0:00:05.00,Default,,0,0,0,,Hello"
      [("2", "3")] "ass" = .ok "[Script Info]") ∧
    (∀ env, filter_subtitle_lines env
      "[Script Info]\nDialogue: 0,0:00:00.00,0:00:05.00,Default,,0,0,0,,Hello"
      [("5", "6")] "ass" =
      .ok "[Script Info]\nDialogue: 0,0:00:00.00,0:00:05.00,Default,,0,0,0,,Hello") := by
  refine ⟨?_, ?_, ?_, ?_, ?_⟩
  · intro env content kind
    rfl
  · intro line R hd hlen
    simp only [ass_line_kept, hd, if_true, if_pos hlen]
    simp [List.any_eq_true, Bool.and_eq_true, decide_eq_true_eq, gt_iff_lt]
  · intro line R hd
    simp [ass_line_kept, hd]
  · intro env
    with_unfolding_all rfl
  · intro env
    with_unfolding_all rfl

/-- Claim C4 witness: instantiation of the overlap criterion on the concrete
0-5 dialogue line against the range list [(2,3)]. -/
theorem C4_filter_overlap_witness :
    ass_line_kept "Dialogue: 0,0:00:00.00,0:00:05.00,Default,,0,0,0,,Hi" [((2 : ℚ), (3 : ℚ))] =
        false ↔
      ∃ rng ∈ [((2 : ℚ), (3 : ℚ))],
        parse_ass_time ((pySplitMax ',' 10
          "Dialogue: 0,0:00:00.00,0:00:05.00,Default,,0,0,0,,Hi").getD 1 "") < rng.2 ∧
        parse_ass_time ((pySplitMax ',' 10
          "Dialogue: 0,0:00:00.00,0:00:05.00,Default,,0,0,0,,Hi").getD 2 "") > rng.1 :=
  C4_filter_overlap.2.1 "Dialogue: 0,0:00:00.00,0:00:05.00,Default,,0,0,0,,Hi"
    [((2 : ℚ), (3 : ℚ))] (by decide) (by decide)

/-- Claim C10: a time field that fails to parse as ASS time yields 0 rather
than raising; consequently, when every parsed exclude range has a
non-negative start, a Dialogue line both of whose time fields parse to 0
never satisfies the strict overlap test, so it is kept in the output of
filter_subtitle_lines. -/
theorem C10_unparseable_time_kept :
    (∀ s, parseAssTimeOpt s = none → parse_ass_time s = 0) ∧
    (∀ env content (ranges : List (String × String)) (parsedR : List (ℚ × ℚ)) line,
      ranges.mapM (fun rng => do
        let s ← parse_time_string rng.1
        let e ← parse_time_string rng.2
        pure (s, e)) = .ok parsedR →
      ranges ≠ [] →
      (∀ rng ∈ parsedR, 0 ≤ rng.1) →
      line ∈ pySplitlines content →
      pyStartsWith line "Dialogue:" = true →
      parse_ass_time ((pySplitMax ',' 10 line).getD 1 "") = 0 →
      parse_ass_time ((pySplitMax ',' 10 line).getD 2 "") = 0 →
      filter_subtitle_lines env content ranges "ass" =
        .ok (String.intercalate "\n"
          ((pySplitlines content).filter (fun ln => ass_line_kept ln parsedR))) ∧
      line ∈ (pySplitlines content).filter (fun ln => ass_line_kept ln parsedR)) := by
  constructor
  · intro s h
    simp [parse_ass_time, h]
  · intro env content ranges parsedR line hmap hne hstart hline hd h1 h2
    have hkept : ass_line_kept line parsedR = true := by
      simp only [ass_line_kept, hd, if_true]
      by_cases hlen : (pySplitMax ',' 10 line).length > 3
      · rw [if_pos hlen, h1, h2]
        simp only [Bool.not_eq_true', List.any_eq_false]
        intro rng hrng
        have := hstart rng hrng
        simp only [Bool.and_eq_true, decide_eq_true_eq, not_and]
        intro _
        simp only [gt_iff_lt, decide_eq_true_eq]
        intro hc
        exact absurd hc (not_lt.mpr this)
      · rw [if_neg hlen]
    constructor
    · unfold filter_subtitle_lines
      rw [hmap]
      have : ranges.isEmpty = false := by
        cases ranges with
        | nil => exact absurd rfl hne
        | cons a t => rfl
      rw [this]
      rfl
    · exact List.mem_filter.mpr ⟨hline, hkept⟩

/-- Claim C10 witness: a dialogue line with unparseable time fields is kept
against the range list [("2","3")]. -/
theorem C10_unparseable_time_kept_witness :
    filter_subtitle_lines testEnv "Dialogue: 0,BAD,ALSO.BAD,Default,,0,0,0,,Hi"
      [("2", "3")] "ass" =
      .ok (String.intercalate "\n"
        ((pySplitlines "Dialogue: 0,BAD,ALSO.BAD,Default,,0,0,0,,Hi").filter
          (fun ln => ass_line_kept ln [((2 : ℚ), (3 : ℚ))]))) ∧
    "Dialogue: 0,BAD,ALSO.BAD,Default,,0,0,0,,Hi" ∈
      (pySplitlines "Dialogue: 0,BAD,ALSO.BAD,Default,,0,0,0,,Hi").filter
        (fun ln => ass_line_kept ln [((2 : ℚ), (3 : ℚ))]) :=
  C10_unparseable_time_kept.2 testEnv "Dialogue: 0,BAD,ALSO.BAD,Default,,0,0,0,,Hi"
    [("2", "3")] [((2 : ℚ), (3 : ℚ))] "Dialogue: 0,BAD,ALSO.BAD,Default,,0,0,0,,Hi"
    (by with_unfolding_all rfl) (by decide)
    (by intro rng hrng; simp only [List.mem_singleton] at hrng; rw [hrng]; norm_num)
    (by with_unfolding_all decide) (by decide)
    (by with_unfolding_all rfl) (by with_unfolding_all rfl)

/-- Claim C5 (counterexample): with explicit x = y = 1/2 the function
returns x verbatim, a non-integer — so "the returned final x and y
coordinates are rounded to integer pixels" is false for every call. -/
theorem C5_counterexample :
    (determine_alignment_code "middle_center" "center" (some (1/2)) (some (1/2))
      100 100).2.2.1 = 1/2 ∧
    ((determine_alignment_code "middle_center" "center" (some (1/2)) (some (1/2))
      100 100).2.2.1).den ≠ 1 := by
  constructor
  · with_unfolding_all rfl
  · with_unfolding_all decide

/-- Claim C5 (amended): when both explicit x and y are provided, position is
ignored, the anchor code is 4 + (horizCode - 1) with horizCode from the
alignment map (left 1, center 2, right 3, default 2), and the position is
the given (x, y) verbatim — without rounding, so only grid-derived
coordinates (when x or y is absent) are integers, via int() truncation. -/
theorem C5_determine_alignment_amended :
    (∀ pos pos' align (x y : ℚ) (w h : ℕ),
      determine_alignment_code pos align (some x) (some y) w h =
        determine_alignment_code pos' align (some x) (some y) w h) ∧
    (∀ pos align (x y : ℚ) (w h : ℕ),
      determine_alignment_code pos align (some x) (some y) w h =
        (4 + (horizontal_map align - 1), true, x, y)) ∧
    (∀ pos align (x y : Option ℚ) (w h : ℕ), (x.isSome ∧ y.isSome → False) →
      ((determine_alignment_code pos align x y w h).2.2.1).den = 1 ∧
      ((determine_alignment_code pos align x y w h).2.2.2).den = 1) := by
  refine ⟨?_, ?_, ?_⟩
  · intro pos pos' align x y w h
    rfl
  · intro pos align x y w h
    rfl
  · intro pos align x y w h hxy
    match x, y with
    | some xv, some yv => exact absurd ⟨rfl, rfl⟩ hxy
    | some xv, none => exact ⟨Rat.den_intCast _, Rat.den_intCast _⟩
    | none, some yv => exact ⟨Rat.den_intCast _, Rat.den_intCast _⟩
    | none, none => exact ⟨Rat.den_intCast _, Rat.den_intCast _⟩

/-- Claim C5 witness: grid-branch instantiation at top_right/left on
1920x1080 produces integer coordinates. -/
theorem C5_determine_alignment_amended_witness :
    ((determine_alignment_code "top_right" "left" none none 1920 1080).2.2.1).den = 1 ∧
    ((determine_alignment_code "top_right" "left" none none 1920 1080).2.2.2).den = 1 :=
  C5_determine_alignment_amended.2.2 "top_right" "left" none none 1920 1080 (by simp)

/-- Claim C6 (counterexample): on segment text "a b" with the replacement
"a b" -> "X" and max_words_per_line 1, the classic handler emits the text
"a\Nb" (split first, replacement applied per line and never matching across
the split), while the claimed order — ReplaceDict, then uppercase, then
split — would give "X".  So the classic handler does not apply replacements
before line-splitting. -/
theorem C6_counterexample :
    handle_classic ⟨[⟨0, 1, "a b", []⟩]⟩
        {max_words_per_line := 1, x := some 5, y := some 7} [("a b", "X")] (100, 100) =
      .ok ("Dialogue: 0,0:00:00.00,0:00:01.00,Default,,0,0,0,,\x7b\\an5\\pos(5,7)\x7da\\Nb") ∧
    process_subtitle_text "a b" [("a b", "X")] false 1 = "X" := by
  constructor
  · with_unfolding_all rfl
  · with_unfolding_all rfl

/-- Claim C6 (amended): in handle_classic the per-segment text is first
cleaned (strip, newlines to spaces) and split into groups of
max_words_per_line whitespace tokens of the raw text; ReplaceDict
substitution and the uppercase transform are then applied to each line
separately with no further splitting; the event list is exactly one
dialogue per segment built from that per-line processing. -/
theorem C6_classic_split_before_replace :
    ∀ (tr : TranscriptionResult) (so : StyleOptions) (rd : List (String × String))
      (vr : ℕ × ℕ),
      handle_classic tr so rd vr = .ok (String.intercalate "\n"
        (tr.segments.map (fun seg =>
          dialogueLine 0 (format_ass_time seg.start) (format_ass_time seg.«end»)
            (classicPosTag so vr
              ++ classicLineText seg.text rd so.all_caps so.max_words_per_line)))) := by
  intro tr so rd vr
  rfl

theorem filterMap_eq_nil_of {α β : Type} (f : α → Option β) (l : List α)
    (h : ∀ a ∈ l, f a = none) : l.filterMap f = [] := by
  induction l with
  | nil => rfl
  | cons a t ih =>
    rw [List.filterMap_cons, h a (by simp)]
    exact ih (fun x hx => h x (by simp [hx]))

theorem flatMap_eq_nil_of {α β : Type} (f : α → List β) (l : List α)
    (h : ∀ a ∈ l, f a = []) : l.flatMap f = [] := by
  induction l with
  | nil => rfl
  | cons a t ih =>
    rw [List.flatMap_cons, h a (by simp)]
    exact ih (fun x hx => h x (by simp [hx]))

/-- Claim C9: the SRT and plain-text normalization paths produce segments
with empty word lists; on a transcription whose segments all have empty
words, the karaoke, highlight, underline and word-by-word handlers emit no
dialogue events at all (result "" after the color conversions), while the
classic handler always emits exactly one dialogue event per segment. -/
theorem C9_wordless_segments :
    (∀ subs, ∀ seg ∈ (srt_to_transcription_result subs).segments, seg.words = []) ∧
    (∀ txt dur, ∀ seg ∈ (plain_text_to_transcription_result txt dur).segments,
      seg.words = []) ∧
    (∀ (tr : TranscriptionResult) (so : StyleOptions) (rd : List (String × String))
       (vr : ℕ × ℕ), (∀ seg ∈ tr.segments, seg.words = []) →
      (∀ c, rgb_to_ass_color (.pyStr so.word_color) = .ok c →
        handle_karaoke tr so rd vr = .ok "") ∧
      (∀ c c', rgb_to_ass_color (.pyStr so.word_color) = .ok c →
        rgb_to_ass_color (.pyStr so.line_color) = .ok c' →
        handle_highlight tr so rd vr = .ok "") ∧
      (∀ c, rgb_to_ass_color (.pyStr so.line_color) = .ok c →
        handle_underline tr so rd vr = .ok "") ∧
      (∀ c, rgb_to_ass_color (.pyStr so.word_color) = .ok c →
        handle_word_by_word tr so rd vr = .ok "")) ∧
    (∀ (tr : TranscriptionResult) (so : StyleOptions) (rd : List (String × String))
       (vr : ℕ × ℕ),
      (handle_classic_events tr so rd vr).length = tr.segments.length) := by
  refine ⟨?_, ?_, ?_, ?_⟩
  · intro subs seg hseg
    simp only [srt_to_transcription_result, List.mem_map] at hseg
    obtain ⟨sub, _, rfl⟩ := hseg
    rfl
  · intro txt dur seg hseg
    simp only [plain_text_to_transcription_result, List.mem_singleton] at hseg
    rw [hseg]
  · intro tr so rd vr hw
    refine ⟨?_, ?_, ?_, ?_⟩
    · intro c hc
      unfold handle_karaoke
      rw [hc]
      have hev : handle_karaoke_events tr so rd vr c = [] := by
        unfold handle_karaoke_events
        apply filterMap_eq_nil_of
        intro seg hseg
        rw [hw seg hseg]
      show Except.ok (String.intercalate "\n" (handle_karaoke_events tr so rd vr c)) =
        Except.ok ""
      rw [hev]
      rfl
    · intro c c' hc hc'
      unfold handle_highlight
      rw [hc, hc']
      have hev : handle_highlight_events tr so rd vr c c' = [] := by
        unfold handle_highlight_events
        apply flatMap_eq_nil_of
        intro seg hseg
        rw [hw seg hseg]
      show Except.ok (String.intercalate "\n" (handle_highlight_events tr so rd vr c c')) =
        Except.ok ""
      rw [hev]
      rfl
    · intro c hc
      unfold handle_underline
      rw [hc]
      have hev : handle_underline_events tr so rd vr c = [] := by
        unfold handle_underline_events
        apply flatMap_eq_nil_of
        intro seg hseg
        rw [hw seg hseg]
      show Except.ok (String.intercalate "\n" (handle_underline_events tr so rd vr c)) =
        Except.ok ""
      rw [hev]
      rfl
    · intro c hc
      unfold handle_word_by_word
      rw [hc]
      have hev : handle_word_by_word_events tr so rd vr c = [] := by
        unfold handle_word_by_word_events
        apply flatMap_eq_nil_of
        intro seg hseg
        rw [hw seg hseg]
      show Except.ok (String.intercalate "\n" (handle_word_by_word_events tr so rd vr c)) =
        Except.ok ""
      rw [hev]
      rfl
  · intro tr so rd vr
    unfold handle_classic_events
    exact List.length_map _ _

/-- Claim C9 witness: a one-segment word-less transcription renders to zero
dialogue events under the karaoke handler. -/
theorem C9_wordless_segments_witness :
    handle_karaoke ⟨[⟨0, 5, "hi", []⟩]⟩ {} [] (100, 100) = .ok "" :=
  ((C9_wordless_segments.2.2.1 ⟨[⟨0, 5, "hi", []⟩]⟩ {} [] (100, 100)
    (by intro seg hseg; simp only [List.mem_singleton] at hseg; rw [hseg])).1)
    "&H0000FFFF" (by with_unfolding_all rfl)

theorem create_style_line_fontError {env : Env} {so : StyleOptions} {vr : ℕ × ℕ}
    {m : String} {f : List String}
    (h : create_style_line env so vr = .fontError m f) :
    m = fontNotAvailableMsg so.font_family ∧ f = env.available_fonts := by
  unfold create_style_line at h
  by_cases hf : (env.available_fonts.map toLowerStr).contains (toLowerStr so.font_family)
  · rw [if_neg (by simpa using hf)] at h
    cases h1 : rgb_to_ass_color (.pyStr so.line_color) with
    | error e => rw [h1] at h; cases h
    | ok lc =>
      rw [h1] at h
      cases h2 : rgb_to_ass_color (.pyStr so.outline_color) with
      | error e => rw [h2] at h; dsimp only at h; cases h
      | ok oc =>
        rw [h2] at h
        dsimp only at h
        cases h3 : rgb_to_ass_color (.pyStr (match so.back_color with
          | some bc => if bc = "" then so.box_color else bc
          | none => so.box_color)) with
        | error e => rw [h3] at h; cases h
        | ok bc => rw [h3] at h; cases h
  · rw [if_pos (by simpa using hf)] at h
    cases h
    exact ⟨rfl, rfl⟩

theorem generate_ass_header_fontError {env : Env} {so : StyleOptions} {vr : ℕ × ℕ}
    {m : String} {f : List String}
    (h : generate_ass_header env so vr = .fontError m f) :
    m = fontNotAvailableMsg so.font_family ∧ f = env.available_fonts := by
  unfold generate_ass_header at h
  cases hc : create_style_line env so vr with
  | fontError m' f' =>
    rw [hc] at h
    cases h
    exact create_style_line_fontError hc
  | raised m' => rw [hc] at h; cases h
  | ok sl => rw [hc] at h; cases h

theorem srt_to_ass_fontError {env : Env} {tr : TranscriptionResult} {st : String}
    {settings : StyleOptions} {rd : List (String × String)} {vr : ℕ × ℕ}
    {m : String} {f : List String}
    (h : srt_to_ass env tr st settings rd vr = .fontError m f) :
    m = fontNotAvailableMsg settings.font_family ∧ f = env.available_fonts := by
  unfold srt_to_ass at h
  dsimp only at h
  cases hh : generate_ass_header env {settings with
      font_size := some ((settings.font_size).getD
        ((pyInt ((vr.2 : ℚ) * (5/100)) : ℚ)))} vr with
  | fontError m' f' =>
    rw [hh] at h
    cases h
    exact generate_ass_header_fontError hh
  | raised m' => rw [hh] at h; cases h
  | ok hdr =>
    rw [hh] at h
    cases hb : (if toLowerStr st = "karaoke" then handle_karaoke tr _ rd vr
      else if toLowerStr st = "highlight" then handle_highlight tr _ rd vr
      else if toLowerStr st = "underline" then handle_underline tr _ rd vr
      else if toLowerStr st = "word_by_word" then handle_word_by_word tr _ rd vr
      else handle_classic tr _ rd vr) with
    | error e => rw [hb] at h; cases h
    | ok b => rw [hb] at h; cases h

theorem build_subtitle_content_fontError {env : Env} {so : StyleOptions} {st : String}
    {rd : List (String × String)} {vr : ℕ × ℕ} {copt : Option String}
    {m : String} {f : List String}
    (h : build_subtitle_content env so st rd vr copt = .produced (.fontError m f)) :
    m = fontNotAvailableMsg so.font_family ∧ f = env.available_fonts := by
  unfold build_subtitle_content at h
  match copt with
  | some content =>
    dsimp only at h
    by_cases hm : containsSubstr content "[Script Info]" = true
    · rw [if_pos hm] at h
      injection h with h'
      cases h'
    · rw [if_neg hm] at h
      by_cases hs : is_srt_format env content = true
      · rw [if_pos hs] at h
        by_cases hc : st ≠ "classic"
        · rw [if_pos hc] at h
          cases h
        · rw [if_neg hc] at h
          cases hp : env.srtParse content with
          | none => rw [hp] at h; cases h
          | some subs =>
            rw [hp] at h
            injection h with h'
            exact srt_to_ass_fontError h'
      · rw [if_neg hs] at h
        injection h with h'
        exact srt_to_ass_fontError h'
  | none =>
    dsimp only at h
    cases ht : env.transcription with
    | error e => rw [ht] at h; cases h
    | ok tr =>
      rw [ht] at h
      injection h with h'
      exact srt_to_ass_fontError h'

theorem build_subtitle_content_earlyError {env : Env} {so : StyleOptions} {st : String}
    {rd : List (String × String)} {vr : ℕ × ℕ} {copt : Option String} {e : ErrVal}
    (h : build_subtitle_content env so st rd vr copt = .earlyError e) :
    e.available_fonts = none := by
  unfold build_subtitle_content at h
  match copt with
  | some content =>
    dsimp only at h
    by_cases hm : containsSubstr content "[Script Info]" = true
    · rw [if_pos hm] at h
      cases h
    · rw [if_neg hm] at h
      by_cases hs : is_srt_format env content = true
      · rw [if_pos hs] at h
        by_cases hc : st ≠ "classic"
        · rw [if_pos hc] at h
          injection h with h'
          rw [← h']
        · rw [if_neg hc] at h
          cases hp : env.srtParse content with
          | none =>
            rw [hp] at h
            injection h with h'
            rw [← h']
          | some subs =>
            rw [hp] at h
            cases h
      · rw [if_neg hs] at h
        cases h
  | none =>
    dsimp only at h
    cases ht : env.transcription with
    | error e2 => rw [ht] at h; cases h
    | ok tr => rw [ht] at h; cases h

/-- Claim C7: the orchestrator is total — every request yields either a
path with exactly the written file, or exactly one structured error with
nothing written; and an error carries available_fonts only when it is the
font-resolution error (the font list is then the catalog's list and the
message is the font-unavailable message for the requested family). -/
theorem C7_orchestrator_contract :
    ∀ (env : Env) (req : Request),
      ((∃ p content, (generate_ass_captions_v1 env req).result = .ok p ∧
        (generate_ass_captions_v1 env req).written = some (p, content)) ∨
       (∃ e, (generate_ass_captions_v1 env req).result = .error e ∧
        (generate_ass_captions_v1 env req).written = none)) ∧
      (∀ e fs, (generate_ass_captions_v1 env req).result = .error e →
        e.available_fonts = some fs →
        fs = env.available_fonts ∧
        ∃ st, req.settings = some st ∧
          e.error = fontNotAvailableMsg (mergeHighlightColor st).font_family) := by
  intro env req
  unfold generate_ass_captions_v1
  split
  next e heq =>
    exact ⟨Or.inr ⟨_, rfl, rfl⟩, by intro e' fs he hf; cases he; cases hf⟩
  next normRanges heq =>
    cases hset : req.settings with
    | none => exact ⟨Or.inr ⟨_, rfl, rfl⟩, by intro e' fs he hf; cases he; cases hf⟩
    | some so0 =>
      cases hrep : req.replace with
      | none => exact ⟨Or.inr ⟨_, rfl, rfl⟩, by intro e' fs he hf; cases he; cases hf⟩
      | some replaceItems =>
        dsimp only
        by_cases hfont : (env.available_fonts.map toLowerStr).contains
            (toLowerStr (mergeHighlightColor so0).font_family)
        · rw [if_neg (by simpa using hfont)]
          split
          next e heq2 =>
            exact ⟨Or.inr ⟨_, rfl, rfl⟩, by intro e' fs he hf; cases he; cases hf⟩
          next captions_content heq2 =>
            split
            next e heq3 =>
              exact ⟨Or.inr ⟨_, rfl, rfl⟩, by intro e' fs he hf; cases he; cases hf⟩
            next vpath heq3 =>
              split
              next e0 heq4 =>
                refine ⟨Or.inr ⟨_, rfl, rfl⟩, ?_⟩
                intro e' fs he hf
                cases he
                rw [build_subtitle_content_earlyError heq4] at hf
                cases hf
              next msg heq4 =>
                exact ⟨Or.inr ⟨_, rfl, rfl⟩, by intro e' fs he hf; cases he; cases hf⟩
              next msg heq4 =>
                exact ⟨Or.inr ⟨_, rfl, rfl⟩, by intro e' fs he hf; cases he; cases hf⟩
              next msg fonts2 heq4 =>
                refine ⟨Or.inr ⟨_, rfl, rfl⟩, ?_⟩
                intro e' fs he hf
                cases he
                cases hf
                have := build_subtitle_content_fontError heq4
                exact ⟨this.2, so0, rfl, this.1⟩
              next subtitle_content heq4 =>
                split
                next msg heq5 =>
                  exact ⟨Or.inr ⟨_, rfl, rfl⟩, by intro e' fs he hf; cases he; cases hf⟩
                next finalContent heq5 =>
                  by_cases hw : env.write_ok
                  · rw [if_pos hw]
                    exact ⟨Or.inl ⟨_, _, rfl, rfl⟩, by intro e' fs he hf; cases he⟩
                  · rw [if_neg hw]
                    exact ⟨Or.inr ⟨_, rfl, rfl⟩, by intro e' fs he hf; cases he; cases hf⟩
        · rw [if_pos (by simpa using hfont)]
          refine ⟨Or.inr ⟨_, rfl, rfl⟩, ?_⟩
          intro e' fs he hf
          cases he
          cases hf
          exact ⟨rfl, so0, rfl, rfl⟩

/-- Claim C7 witness: on a request with an unavailable font the error
carries the catalog list and the font-unavailable message. -/
theorem C7_orchestrator_contract_witness :
    (["Arial"] : List String) = testEnv.available_fonts ∧
    ∃ st, testReqFontMissing.settings = some st ∧
      ("Font 'Nope' not available." : String) =
        fontNotAvailableMsg (mergeHighlightColor st).font_family :=
  (C7_orchestrator_contract testEnv testReqFontMissing).2
    ⟨"Font 'Nope' not available.", some ["Arial"]⟩ ["Arial"]
    (by with_unfolding_all rfl) rfl

theorem mergeHighlightColor_style (so : StyleOptions) :
    (mergeHighlightColor so).style = so.style := by
  unfold mergeHighlightColor
  cases so.highlight_color <;> rfl

theorem build_srt_gate {env : Env} {so : StyleOptions} {st : String}
    {rd : List (String × String)} {vr : ℕ × ℕ} {content : String}
    (hm : containsSubstr content "[Script Info]" = false)
    (hs : is_srt_format env content = true)
    (hc : st ≠ "classic") :
    build_subtitle_content env so st rd vr (some content) =
      .earlyError ⟨"Only 'classic' style is supported for SRT captions.", none⟩ := by
  unfold build_subtitle_content
  dsimp only
  rw [if_neg (by simp [hm]), if_pos hs, if_pos hc]

/-- Claim C3: a request whose resolved caption content lacks the ASS marker
and is detected as valid SRT, with a requested style other than classic,
always yields a structured error and no file is written for the job. -/
theorem C3_srt_non_classic_error :
    ∀ (env : Env) (req : Request) (content : String),
      resolve_captions env req.captions = .ok (some content) →
      containsSubstr content "[Script Info]" = false →
      is_srt_format env content = true →
      (∀ st ∈ req.settings, toLowerStr st.style ≠ "classic") →
      ∃ e, (generate_ass_captions_v1 env req).result = .error e ∧
        (generate_ass_captions_v1 env req).written = none := by
  intro env req content hres hm hs hstyle
  unfold generate_ass_captions_v1
  split
  next e heq => exact ⟨_, rfl, rfl⟩
  next normRanges heq =>
    cases hset : req.settings with
    | none => exact ⟨_, rfl, rfl⟩
    | some so0 =>
      cases hrep : req.replace with
      | none => exact ⟨_, rfl, rfl⟩
      | some replaceItems =>
        dsimp only
        by_cases hfont : (env.available_fonts.map toLowerStr).contains
            (toLowerStr (mergeHighlightColor so0).font_family)
        · rw [if_neg (by simpa using hfont)]
          split
          next e heq2 => exact ⟨_, rfl, rfl⟩
          next captions_content heq2 =>
            have hcc : captions_content = some content := by
              rw [hres] at heq2
              injection heq2 with h'
              exact h'.symm
            subst hcc
            split
            next e heq3 => exact ⟨_, rfl, rfl⟩
            next vpath heq3 =>
              have hstyle0 : toLowerStr so0.style ≠ "classic" :=
                hstyle so0 (by simp [hset, Option.mem_def])
              have hstyle' : toLowerStr (mergeHighlightColor so0).style ≠ "classic" := by
                rw [mergeHighlightColor_style]
                exact hstyle0
              rw [build_srt_gate hm hs hstyle']
              exact ⟨_, rfl, rfl⟩
        · rw [if_pos (by simpa using hfont)]
          exact ⟨_, rfl, rfl⟩

/-- Claim C3 witness: the concrete SRT request with style karaoke fails with
a structured error and writes nothing. -/
theorem C3_srt_non_classic_error_witness :
    ∃ e, (generate_ass_captions_v1 testEnv testReqSrtKaraoke).result = .error e ∧
      (generate_ass_captions_v1 testEnv testReqSrtKaraoke).written = none :=
  C3_srt_non_classic_error testEnv testReqSrtKaraoke
    "1\n00:00:00,000 --> 00:00:05,000\nHello"
    (by with_unfolding_all rfl) (by with_unfolding_all rfl)
    (by with_unfolding_all rfl)
    (by
      intro st hst
      simp only [testReqSrtKaraoke, Option.mem_def, Option.some.injEq] at hst
      rw [← hst]
      with_unfolding_all decide)

/-! ### Digit strings parse back to their value -/

theorem digit_toNat {c : Char} (h : isDigitChar c = true) :
    48 ≤ c.toNat ∧ c.toNat ≤ 57 := by
  simpa [isDigitChar, Bool.and_eq_true, decide_eq_true_eq] using h

theorem digit_not_ws {c : Char} (h : isDigitChar c = true) : isPyWsChar c = false := by
  have hr := digit_toNat h
  simp only [isPyWsChar, Bool.or_eq_false_iff, decide_eq_false_iff_not]
  omega

theorem digit_ne_of_toNat {c : Char} (h : isDigitChar c = true) {d : Char}
    (hd : d.toNat < 48 ∨ 57 < d.toNat) : c ≠ d := by
  intro hc
  rw [hc] at h
  have := digit_toNat h
  omega

theorem dropWhile_eq_self_of {p : Char → Bool} {l : List Char}
    (h : ∀ c ∈ l, p c = false) : l.dropWhile p = l := by
  cases l with
  | nil => rfl
  | cons a t => simp [List.dropWhile_cons, h a (by simp)]

theorem pyStripList_eq_self {l : List Char} (h : ∀ c ∈ l, isPyWsChar c = false) :
    pyStripList l = l := by
  unfold pyStripList
  rw [dropWhile_eq_self_of h,
    dropWhile_eq_self_of (fun c hc => h c (List.mem_reverse.mp hc)),
    List.reverse_reverse]

theorem digitsValueAux_digits {l : List Char} (hall : ∀ c ∈ l, isDigitChar c = true)
    (acc : ℤ) :
    digitsValueAux 10 isDigitChar decDigitVal acc l =
      some (l.foldl (fun a c => 10 * a + (decDigitVal c : ℤ)) acc) := by
  induction l generalizing acc with
  | nil => rfl
  | cons c t ih =>
    unfold digitsValueAux
    rw [if_pos (hall c (by simp))]
    rw [ih (fun x hx => hall x (by simp [hx]))]
    rfl

theorem pyIntDec_digits {l : List Char} (hne : l ≠ [])
    (hall : ∀ c ∈ l, isDigitChar c = true) :
    pyIntDec (String.mk l) = .ok (decValue l) := by
  unfold pyIntDec
  rw [toList_mk, pyStripList_eq_self (fun c hc => digit_not_ws (hall c hc))]
  cases l with
  | nil => exact absurd rfl hne
  | cons c t =>
    have hc := hall c (by simp)
    have hplus : c ≠ '+' := digit_ne_of_toNat hc (by left; decide)
    have hminus : c ≠ '-' := digit_ne_of_toNat hc (by left; decide)
    simp only [splitSign, if_neg hplus, if_neg hminus]
    unfold digitsValue
    dsimp only
    rw [if_pos hc, digitsValueAux_digits (fun x hx => hall x (by simp [hx]))]
    simp only [Except.ok.injEq, one_mul, decValue, List.foldl_cons]
    norm_num

theorem natDecAux_digits : ∀ (fuel n : ℕ), ∀ c ∈ natDecAux fuel n, isDigitChar c = true := by
  intro fuel
  induction fuel with
  | zero => intro n c hc; cases hc
  | succ f ih =>
    intro n c hc
    unfold natDecAux at hc
    by_cases hn : n = 0
    · rw [if_pos hn] at hc; cases hc
    · rw [if_neg hn] at hc
      rcases List.mem_append.mp hc with h1 | h2
      · exact ih (n / 10) c h1
      · have hr : n % 10 < 10 := Nat.mod_lt _ (by omega)
        have : ∀ r : ℕ, r < 10 → isDigitChar (Char.ofNat (48 + r)) = true := by decide
        simp only [List.mem_singleton] at h2
        rw [h2]
        exact this _ hr

theorem natDecChars_digits (n : ℕ) : ∀ c ∈ natDecChars n, isDigitChar c = true := by
  unfold natDecChars
  by_cases hn : n = 0
  · rw [if_pos hn]; intro c hc; simp only [List.mem_singleton] at hc; rw [hc]; decide
  · rw [if_neg hn]; exact natDecAux_digits (n+1) n

theorem decValue_append_singleton (l : List Char) (d : Char) :
    decValue (l ++ [d]) = 10 * decValue l + (decDigitVal d : ℤ) := by
  unfold decValue
  rw [List.foldl_append]
  rfl

theorem ofNat_digit_toNat : ∀ r : ℕ, r < 10 → (Char.ofNat (48 + r)).toNat = 48 + r := by
  decide

theorem decValue_natDecAux : ∀ (fuel n : ℕ), n ≤ fuel → decValue (natDecAux fuel n) = n := by
  intro fuel
  induction fuel with
  | zero =>
    intro n hn
    interval_cases n
    rfl
  | succ f ih =>
    intro n hn
    unfold natDecAux
    by_cases h0 : n = 0
    · rw [if_pos h0, h0]; rfl
    · rw [if_neg h0, decValue_append_singleton,
        ih (n / 10) (by have := Nat.div_lt_self (by omega : 0 < n) (by omega : 1 < 10); omega)]
      have hr : n % 10 < 10 := Nat.mod_lt _ (by omega)
      unfold decDigitVal
      rw [ofNat_digit_toNat _ hr]
      have : (48 + n % 10 - 48 : ℕ) = n % 10 := by omega
      rw [this]
      have hsplit : n = 10 * (n / 10) + n % 10 := (Nat.div_add_mod n 10).symm
      push_cast
      omega

theorem decValue_natDecChars (n : ℕ) : decValue (natDecChars n) = n := by
  unfold natDecChars
  by_cases hn : n = 0
  · rw [if_pos hn, hn]; rfl
  · rw [if_neg hn]; exact decValue_natDecAux (n+1) n (by omega)

theorem natDecChars_ne_nil (n : ℕ) : natDecChars n ≠ [] := by
  unfold natDecChars
  by_cases hn : n = 0
  · rw [if_pos hn]; simp
  · rw [if_neg hn]
    unfold natDecAux
    rw [if_neg hn]
    simp

theorem decValue_replicate_zero (k : ℕ) (l : List Char) :
    decValue (List.replicate k '0' ++ l) = decValue l := by
  induction k with
  | zero => rfl
  | succ m ih =>
    rw [List.replicate_succ, List.cons_append]
    unfold decValue at ih ⊢
    rw [List.foldl_cons]
    have : (10 * 0 + (decDigitVal '0' : ℤ)) = 0 := by decide
    rw [this]
    exact ih

theorem pad2Chars_digits {m : ℤ} (hm : 0 ≤ m) : ∀ c ∈ pad2Chars m, isDigitChar c = true := by
  unfold pad2Chars
  rw [if_neg (by omega : ¬ m < 0)]
  intro c hc
  unfold padLeftZero at hc
  rcases List.mem_append.mp hc with h1 | h2
  · have := List.eq_of_mem_replicate h1
    rw [this]; decide
  · exact natDecChars_digits _ c h2

theorem pad2Chars_ne_nil {m : ℤ} (hm : 0 ≤ m) : pad2Chars m ≠ [] := by
  unfold pad2Chars
  rw [if_neg (by omega : ¬ m < 0)]
  unfold padLeftZero
  intro h
  rcases List.append_eq_nil.mp h with ⟨_, h2⟩
  exact natDecChars_ne_nil _ h2

theorem pyIntDec_pad2 {m : ℤ} (hm : 0 ≤ m) :
    pyIntDec (String.mk (pad2Chars m)) = .ok m := by
  rw [pyIntDec_digits (pad2Chars_ne_nil hm) (pad2Chars_digits hm)]
  unfold pad2Chars
  rw [if_neg (by omega : ¬ m < 0)]
  unfold padLeftZero
  rw [decValue_replicate_zero, decValue_natDecChars, Int.toNat_of_nonneg hm]

theorem pyIntDec_intDec {m : ℤ} (hm : 0 ≤ m) :
    pyIntDec (String.mk (intDecChars m)) = .ok m := by
  unfold intDecChars
  rw [if_neg (by omega : ¬ m < 0)]
  rw [pyIntDec_digits (natDecChars_ne_nil _) (natDecChars_digits _)]
  rw [decValue_natDecChars, Int.toNat_of_nonneg hm]

/-! ### Split structure of the formatted time string -/

theorem splitCharAux_no_sep {sep : Char} {l : List Char} (h : sep ∉ l) (acc : List Char) :
    splitCharAux sep acc l = [acc.reverse ++ l] := by
  induction l generalizing acc with
  | nil => simp [splitCharAux]
  | cons c t ih =>
    have hcs : c ≠ sep := fun hc => h (by simp [hc])
    unfold splitCharAux
    rw [if_neg (fun hh => hcs hh)]
    rw [ih (fun hm => h (by simp [hm])) (c :: acc)]
    simp

theorem splitCharAux_mid {sep : Char} {l₁ : List Char} (h : sep ∉ l₁) (acc : List Char)
    (l₂ : List Char) :
    splitCharAux sep acc (l₁ ++ sep :: l₂) =
      (acc.reverse ++ l₁) :: splitCharAux sep [] l₂ := by
  induction l₁ generalizing acc with
  | nil =>
    rw [List.nil_append]
    conv_lhs => unfold splitCharAux
    rw [if_pos rfl]
    simp
  | cons c t ih =>
    have hcs : c ≠ sep := fun hc => h (by simp [hc])
    rw [List.cons_append]
    conv_lhs => unfold splitCharAux
    rw [if_neg (fun hh => hcs hh)]
    rw [ih (fun hm => h (by simp [hm])) (c :: acc)]
    simp

theorem not_mem_of_all_digits {l : List Char} (hall : ∀ c ∈ l, isDigitChar c = true)
    {d : Char} (hd : isDigitChar d = false) : d ∉ l := by
  intro hm
  rw [hall d hm] at hd
  cases hd

/-- parse_ass_time applied to a well-formed H:MM:SS.cc built from digit
lists recovers the four numeric fields. -/
theorem parse_format_structure {hd mm ss cc : List Char}
    (hhd : ∀ c ∈ hd, isDigitChar c = true) (hmm : ∀ c ∈ mm, isDigitChar c = true)
    (hss : ∀ c ∈ ss, isDigitChar c = true) (hcc : ∀ c ∈ cc, isDigitChar c = true)
    (hdne : hd ≠ []) (mmne : mm ≠ []) (ssne : ss ≠ []) (ccne : cc ≠ []) :
    parse_ass_time (String.mk (hd ++ ':' :: mm ++ ':' :: ss ++ '.' :: cc)) =
      (decValue hd : ℚ) * 3600 + (decValue mm : ℚ) * 60 + (decValue ss : ℚ)
        + (decValue cc : ℚ) / 100 := by
  have hcolon : isDigitChar ':' = false := by decide
  have hdot : isDigitChar '.' = false := by decide
  have h1 : (':' : Char) ∉ hd := not_mem_of_all_digits hhd hcolon
  have h2 : (':' : Char) ∉ mm := not_mem_of_all_digits hmm hcolon
  have h3 : (':' : Char) ∉ ss ++ '.' :: cc := by
    intro hm
    rcases List.mem_append.mp hm with ha | hb
    · exact not_mem_of_all_digits hss hcolon ha
    · rcases List.mem_cons.mp hb with hc | hcc2
      · cases hc
      · exact not_mem_of_all_digits hcc hcolon hcc2
  have h4 : ('.' : Char) ∉ ss := not_mem_of_all_digits hss hdot
  have h5 : ('.' : Char) ∉ cc := not_mem_of_all_digits hcc hdot
  unfold parse_ass_time parseAssTimeOpt pySplitChar
  rw [toList_mk]
  rw [show hd ++ ':' :: mm ++ ':' :: ss ++ '.' :: cc =
    hd ++ ':' :: (mm ++ ':' :: (ss ++ '.' :: cc)) by simp]
  rw [splitCharAux_mid h1, splitCharAux_mid h2, splitCharAux_no_sep h3]
  simp only [List.map_cons, List.map_nil, List.reverse_nil, List.nil_append, toList_mk]
  rw [show splitCharAux '.' [] (ss ++ '.' :: cc) = ss :: [cc] from by
    rw [splitCharAux_mid h4, splitCharAux_no_sep h5]; simp]
  simp only [List.map_cons, List.map_nil]
  rw [pyIntDec_digits hdne hhd, pyIntDec_digits mmne hmm, pyIntDec_digits ssne hss,
    pyIntDec_digits ccne hcc]
  rfl

/-! ### Rounding and float-mod arithmetic -/

theorem pyInt_of_nonneg {q : ℚ} (h : 0 ≤ q) : pyInt q = ⌊q⌋ := by
  unfold pyInt
  rw [if_pos h, ratFloor_eq]

theorem pyRound_intCast (k : ℤ) : pyRound (k : ℚ) = k := by
  unfold pyRound
  dsimp only
  rw [ratFloor_eq, Int.floor_intCast, sub_self]
  norm_num

theorem pyRound_nonneg {q : ℚ} (h : 0 ≤ q) : 0 ≤ pyRound q := by
  unfold pyRound
  dsimp only
  rw [ratFloor_eq]
  have hf : 0 ≤ ⌊q⌋ := Int.floor_nonneg.mpr h
  split_ifs <;> omega

theorem pyRound_intCast_add {k : ℤ} (hk : k % 2 = 0) (x : ℚ) :
    pyRound ((k : ℚ) + x) = k + pyRound x := by
  unfold pyRound
  dsimp only
  rw [ratFloor_eq, ratFloor_eq, add_comm (k : ℚ) x, Int.floor_add_int]
  have hr : x + (k : ℚ) - ((⌊x⌋ + k : ℤ) : ℚ) = x - ((⌊x⌋ : ℤ) : ℚ) := by
    push_cast
    ring
  rw [hr]
  split_ifs <;> omega

theorem abs_pyRound_sub (q : ℚ) : |(pyRound q : ℚ) - q| ≤ 1 / 2 := by
  unfold pyRound
  dsimp only
  rw [ratFloor_eq]
  have h1 : ((⌊q⌋ : ℤ) : ℚ) ≤ q := Int.floor_le q
  have h2 : q < ((⌊q⌋ : ℤ) : ℚ) + 1 := Int.lt_floor_add_one q
  split_ifs with ha hb hc <;> rw [abs_le] <;> constructor <;> push_cast <;> linarith

theorem pyMod_nonneg (a : ℚ) {b : ℚ} (hb : 0 < b) : 0 ≤ pyMod a b := by
  unfold pyMod
  rw [ratFloor_eq]
  have h := Int.floor_le (a / b)
  have hmul : b * ((⌊a / b⌋ : ℤ) : ℚ) ≤ b * (a / b) :=
    mul_le_mul_of_nonneg_left h (le_of_lt hb)
  have hba : b * (a / b) = a := by field_simp
  linarith

theorem pyMod_lt (a : ℚ) {b : ℚ} (hb : 0 < b) : pyMod a b < b := by
  unfold pyMod
  rw [ratFloor_eq]
  have h := Int.lt_floor_add_one (a / b)
  have hmul : b * (a / b) < b * (((⌊a / b⌋ : ℤ) : ℚ) + 1) := by
    apply mul_lt_mul_of_pos_left h hb
  have hba : b * (a / b) = a := by field_simp
  nlinarith

theorem decValue_intDec {m : ℤ} (hm : 0 ≤ m) : decValue (intDecChars m) = m := by
  unfold intDecChars
  rw [if_neg (by omega : ¬ m < 0), decValue_natDecChars, Int.toNat_of_nonneg hm]

theorem decValue_pad2 {m : ℤ} (hm : 0 ≤ m) : decValue (pad2Chars m) = m := by
  unfold pad2Chars
  rw [if_neg (by omega : ¬ m < 0)]
  unfold padLeftZero
  rw [decValue_replicate_zero, decValue_natDecChars, Int.toNat_of_nonneg hm]

theorem intDecChars_digits {m : ℤ} (hm : 0 ≤ m) :
    ∀ c ∈ intDecChars m, isDigitChar c = true := by
  unfold intDecChars
  rw [if_neg (by omega : ¬ m < 0)]
  exact natDecChars_digits _

theorem intDecChars_ne_nil {m : ℤ} (hm : 0 ≤ m) : intDecChars m ≠ [] := by
  unfold intDecChars
  rw [if_neg (by omega : ¬ m < 0)]
  exact natDecChars_ne_nil _

/-- Claim C8: parse_ass_time inverts format_ass_time: for non-negative s
the round trip gives exactly s rounded to the nearest centisecond (Python
banker's rounding at exact half-centisecond ties), so it is within 1/200 of
s, and is exactly s whenever s is a whole number of centiseconds.  This
holds even when the centisecond field overflows to 100, because
int("100")/100 re-adds the missing carry at parse time. -/
theorem C8_parse_format_inverse :
    ∀ s : ℚ, 0 ≤ s →
      parse_ass_time (format_ass_time s) = ((pyRound (100 * s) : ℤ) : ℚ) / 100 ∧
      |parse_ass_time (format_ass_time s) - s| ≤ 1 / 200 ∧
      ∀ k : ℤ, s = (k : ℚ) / 100 → parse_ass_time (format_ass_time s) = s := by
  intro s hs
  have hH0 : (0 : ℚ) ≤ s / 3600 := by positivity
  have hHnn : 0 ≤ ratFloor (s / 3600) := by
    rw [ratFloor_eq]
    exact Int.floor_nonneg.mpr hH0
  have hMod3600 : 0 ≤ pyMod s 3600 := pyMod_nonneg s (by norm_num)
  have hMnn : 0 ≤ ratFloor (pyMod s 3600 / 60) := by
    rw [ratFloor_eq]
    exact Int.floor_nonneg.mpr (by positivity)
  have hMod60 : 0 ≤ pyMod s 60 := pyMod_nonneg s (by norm_num)
  have hSnn : 0 ≤ pyInt (pyMod s 60) := by
    rw [pyInt_of_nonneg hMod60]
    exact Int.floor_nonneg.mpr hMod60
  have hfrac : 0 ≤ (s - ((pyInt s : ℤ) : ℚ)) * 100 := by
    rw [pyInt_of_nonneg hs]
    have := Int.floor_le s
    nlinarith
  have hCnn : 0 ≤ pyRound ((s - ((pyInt s : ℤ) : ℚ)) * 100) := pyRound_nonneg hfrac
  have hstruct : parse_ass_time (format_ass_time s) =
      ((ratFloor (s / 3600) : ℤ) : ℚ) * 3600
        + ((ratFloor (pyMod s 3600 / 60) : ℤ) : ℚ) * 60
        + ((pyInt (pyMod s 60) : ℤ) : ℚ)
        + ((pyRound ((s - ((pyInt s : ℤ) : ℚ)) * 100) : ℤ) : ℚ) / 100 := by
    unfold format_ass_time
    dsimp only
    rw [parse_format_structure (intDecChars_digits hHnn) (pad2Chars_digits hMnn)
      (pad2Chars_digits hSnn) (pad2Chars_digits hCnn) (intDecChars_ne_nil hHnn)
      (pad2Chars_ne_nil hMnn) (pad2Chars_ne_nil hSnn) (pad2Chars_ne_nil hCnn)]
    rw [decValue_intDec hHnn, decValue_pad2 hMnn, decValue_pad2 hSnn, decValue_pad2 hCnn]
  have hMeq : ratFloor (pyMod s 3600 / 60) = ⌊s / 60⌋ - 60 * ⌊s / 3600⌋ := by
    rw [ratFloor_eq]
    have harg : pyMod s 3600 / 60 = s / 60 - ((60 * ⌊s / 3600⌋ : ℤ) : ℚ) := by
      unfold pyMod
      rw [ratFloor_eq]
      push_cast
      ring
    rw [harg, Int.floor_sub_int]
  have hSeq : pyInt (pyMod s 60) = ⌊s⌋ - 60 * ⌊s / 60⌋ := by
    rw [pyInt_of_nonneg hMod60]
    unfold pyMod
    rw [ratFloor_eq]
    have harg : s - 60 * ((⌊s / 60⌋ : ℤ) : ℚ) = s - ((60 * ⌊s / 60⌋ : ℤ) : ℚ) := by
      push_cast
      ring
    rw [harg, Int.floor_sub_int]
  have hCeq : pyRound ((s - ((pyInt s : ℤ) : ℚ)) * 100) = pyRound (100 * s) - 100 * ⌊s⌋ := by
    rw [pyInt_of_nonneg hs]
    have harg : (s - ((⌊s⌋ : ℤ) : ℚ)) * 100 = ((-(100 * ⌊s⌋) : ℤ) : ℚ) + 100 * s := by
      push_cast
      ring
    rw [harg, pyRound_intCast_add (by omega) (100 * s)]
    ring
  have hHeq : ratFloor (s / 3600) = ⌊s / 3600⌋ := ratFloor_eq _
  have hmain : parse_ass_time (format_ass_time s) = ((pyRound (100 * s) : ℤ) : ℚ) / 100 := by
    rw [hstruct, hHeq, hMeq, hSeq, hCeq]
    push_cast
    ring
  refine ⟨hmain, ?_, ?_⟩
  · rw [hmain]
    have habs := abs_pyRound_sub (100 * s)
    have h100 : ((pyRound (100 * s) : ℤ) : ℚ) / 100 - s =
        (((pyRound (100 * s) : ℤ) : ℚ) - 100 * s) / 100 := by
      ring
    rw [h100, abs_div, abs_of_pos (by norm_num : (0 : ℚ) < 100)]
    linarith
  · intro k hk
    rw [hmain, hk]
    have h1 : (100 : ℚ) * ((k : ℚ) / 100) = (k : ℚ) := by ring
    rw [h1, pyRound_intCast]

/-- Claim C8 witness: the round trip at s = 3661.5 and at the carry case
s = 1.999. -/
theorem C8_parse_format_inverse_witness :
    parse_ass_time (format_ass_time (7323 / 2)) = 7323 / 2 ∧
    parse_ass_time (format_ass_time (1999 / 1000)) =
      ((pyRound (100 * (1999 / 1000)) : ℤ) : ℚ) / 100 :=
  ⟨(C8_parse_format_inverse (7323 / 2) (by norm_num)).2.2 366150 (by norm_num),
   (C8_parse_format_inverse (1999 / 1000) (by norm_num)).1⟩

end AssToolkit
